import Mathlib

/-!
# RTU-over-TCP transport of the Modbus client: framing loop and exchange

A shallow embedding of `rtu_over_tcp_client.go`:

* `readResponse` — the framing loop that assembles one reply from the stream;
* `Send` — one request/response exchange on the handler's connection;
* `NewRTUOverTCPClientHandler` — the constructor of the handler.

Bytes are natural numbers; Go's `error` is `Option ConnError` (`none` is `nil`); a
byte slice that may be `nil` is `Option (List Nat)`.  A run-time panic (index or
slice out of range) is an outcome of its own.
-/

namespace Modbus

/-! ## Constants of the RTU framing -/

/-- Modelled from the spec: the constant `rtuMinSize` is declared in the serial RTU
client of the repository, which is not part of the sources at hand; the spec gives the
protocol minimum frame size as 4 bytes (address, function, two CRC bytes). -/
def rtuMinSize : Nat := 4

/-- Modelled from the spec: the constant `rtuMaxSize` is declared in the serial RTU
client of the repository, which is not part of the sources at hand; it is the protocol
maximum frame size of Modbus RTU, 256 bytes. -/
def rtuMaxSize : Nat := 256

/-- Modelled from the spec: the constant `rtuExceptionSize` is declared in the serial
RTU client of the repository, which is not part of the sources at hand; the spec gives
the fixed length of an exception reply as 5 bytes. -/
def rtuExceptionSize : Nat := 5

/-! ## The stream connection -/

/-- Errors a connection operation can report. `EOF`, `ErrUnexpectedEOF` and
`ErrShortBuffer` are the values of Go's package `io`; the others stand for the errors of
package `net` (deadline exceeded, use of a closed connection, failed dial, other). -/
inductive ConnError where
  | EOF
  | ErrUnexpectedEOF
  | ErrShortBuffer
  | timeout
  | closed
  | refused
  | other (code : Nat)
  deriving DecidableEq, Repr

/-- What the peer side of a `net.Conn` does during one call of `readResponse`: it
delivers `chunks` one read at a time (a read with a smaller buffer takes the front of
the chunk and leaves the rest queued) and, once they are used up, every read fails with
`final` (deadline exceeded, end of stream, ...). -/
structure Conn where
  chunks : List (List Nat)
  final : ConnError
  deriving DecidableEq, Repr

/-- All bytes the connection still holds, in stream order. -/
def Conn.pending (c : Conn) : List Nat := c.chunks.flatten

/-- One `conn.Read(p)` with `len(p) = cap`: the bytes stored at the front of `p`,
the error, and the connection afterwards. -/
def Conn.Read (c : Conn) (cap : Nat) : List Nat × Option ConnError × Conn :=
  match c.chunks with
  | [] => ([], some c.final, c)
  | ch :: rest =>
    if ch.length ≤ cap then (ch, none, { c with chunks := rest })
    else (ch.take cap, none, { c with chunks := ch.drop cap :: rest })

/-- Store `bs` into `buf` from offset `off` on (the effect of `Read(buf[off:])`). -/
def writeAt (buf : List Nat) (off : Nat) (bs : List Nat) : List Nat :=
  buf.take off ++ bs ++ buf.drop (off + bs.length)

/-- The loop of Go's `io.ReadAtLeast`:
`for n < min && err == nil { nn, err = r.Read(buf[n:]); n += nn }`.
The first argument bounds the number of `Read` calls; `none` means the bound was reached. -/
def ReadAtLeastLoop (min : Nat) :
    Nat → Conn → List Nat → Nat → Option ConnError →
      Option (Nat × Option ConnError × List Nat × Conn)
  | 0, r, buf, n, err =>
    if n < min ∧ err = none then none else some (n, err, buf, r)
  | fuel + 1, r, buf, n, err =>
    if n < min ∧ err = none then
      let res := r.Read (buf.length - n)
      ReadAtLeastLoop min fuel res.2.2 (writeAt buf n res.1) (n + res.1.length) res.2.1
    else some (n, err, buf, r)

/-- Go's `io.ReadAtLeast(r, buf, min)`: the count `n`, the error, the contents of `buf`
afterwards and the connection afterwards. Every `Read` that delivers part of a chunk
fills the buffer, so one `Read` per queued chunk and one more always suffice. -/
def ReadAtLeast (r : Conn) (buf : List Nat) (min : Nat) :
    Option (Nat × Option ConnError × List Nat × Conn) :=
  if buf.length < min then some (0, some ConnError.ErrShortBuffer, buf, r)
  else
    match ReadAtLeastLoop min (r.chunks.length + 1) r buf 0 none with
    | none => none
    | some (n, err, buf', r') =>
      if min ≤ n then some (n, none, buf', r')
      else if 0 < n ∧ err = some ConnError.EOF then
        some (n, some ConnError.ErrUnexpectedEOF, buf', r')
      else some (n, err, buf', r')

/-- Go's `io.ReadFull(r, buf)`, which is `ReadAtLeast(r, buf, len(buf))`. -/
def ReadFull (r : Conn) (buf : List Nat) :
    Option (Nat × Option ConnError × List Nat × Conn) :=
  ReadAtLeast r buf buf.length

/-- The error `ReadAtLeast` reports after a short read from a connection that then
fails with `e`, having obtained `n` bytes. -/
def shortError (n : Nat) (e : ConnError) : ConnError :=
  if 0 < n ∧ e = ConnError.EOF then ConnError.ErrUnexpectedEOF else e

/-! ## Effects on the connection, the lock, the timer and the logger -/

/-- The observable operations of the transporter, in the order they happen. -/
inductive Effect where
  | lock
  | unlock
  | connect (err : Option ConnError)
  | setDeadline (t : Int) (err : Option ConnError)
  | readAll
  | startCloseTimer
  | logf (fmt : String) (bs : List Nat)
  | write (bs : List Nat) (err : Option ConnError)
  | readAtLeast (min n : Nat)
  | readFull (lo hi n : Nat)
  deriving DecidableEq, Repr

/-! ## `readResponse` -/

/-- How a call ends: it returns the pair `(aduResponse, err)` or it panics. -/
inductive Outcome where
  | ret (aduResponse : Option (List Nat)) (err : Option ConnError)
  | panic
  deriving DecidableEq, Repr

/-- The operations the framing loop itself performs: the two kinds of read and the log
line. -/
def Effect.isFramer : Effect → Bool
  | Effect.readAtLeast _ _ => true
  | Effect.readFull _ _ _ => true
  | Effect.logf _ _ => true
  | _ => false

/-- An outcome is no false accept for `address`: if it is a return without error, the
frame returned has at least `rtuMinSize` bytes and starts with `address`. -/
def Outcome.Sound (address : Nat) (o : Outcome) : Prop :=
  ∀ resp, o = Outcome.ret resp none →
    ∃ F, resp = some F ∧ rtuMinSize ≤ F.length ∧ F.head? = some address

/-- The end of a call of `readResponse`: the outcome, the connection as it is left and
the operations performed. -/
structure Exit where
  outcome : Outcome
  conn : Conn
  trace : List Effect
  deriving DecidableEq, Repr

/-- The variables of `readResponse` that live across the iterations of its loop: `n1`,
the array `data`, the named result `aduResponse` (`nil`, or the slice `data[:k]` given
by its length `k`), together with the connection and the operations performed so far.
(`n` and `err` are assigned afresh at the top of each iteration.) -/
structure Frame where
  n1 : Nat
  data : List Nat
  aduResponse : Option Nat
  conn : Conn
  trace : List Effect
  deriving DecidableEq, Repr

/-- What holds of the end of a call when the loop was at frame `s`: the operations
performed extend those of `s` by operations of the framing loop, the outcome is no false
accept, and the connection has only moved forward. -/
def ExitPost (address : Nat) (s : Frame) (x : Exit) : Prop :=
  (∃ ops, x.trace = s.trace ++ ops ∧ ∀ o ∈ ops, o.isFramer = true)
    ∧ x.outcome.Sound address ∧ x.conn.final = s.conn.final
    ∧ x.conn.pending.length ≤ s.conn.pending.length

/-- What holds of the frame `s'` with which the loop goes round again after an iteration
started at `s`: the array keeps its size, at least `rtuMinSize` bytes were taken off the
connection, and the operations performed extend those of `s` by operations of the
framing loop. -/
def RetryPost (s s' : Frame) : Prop :=
  s'.data.length = rtuMaxSize
    ∧ s'.conn.pending.length + rtuMinSize ≤ s.conn.pending.length
    ∧ s'.conn.final = s.conn.final
    ∧ ∃ ops, s'.trace = s.trace ++ ops ∧ ∀ o ∈ ops, o.isFramer = true

/-- The postcondition of one iteration started at `s`. -/
def StepPost (address : Nat) (s : Frame) : Exit ⊕ Frame → Prop
  | Sum.inl x => ExitPost address s x
  | Sum.inr s' => RetryPost s s'

/-- The value of the named result `aduResponse` at a `return`: it aliases `data`. -/
def resultSlice (aduResponse : Option Nat) (data : List Nat) : Option (List Nat) :=
  aduResponse.map (fun k => data.take k)

/-- The part of an iteration after the remainder reads: `if err != nil { return }`,
`aduResponse = data[:n]`, the log line, and the address check. -/
def validate (address : Nat) (old : Option Nat) (n n1 : Nat) (err : Option ConnError)
    (data : List Nat) (conn : Conn) (trace : List Effect) : Exit ⊕ Frame :=
  if err ≠ none then
    Sum.inl ⟨Outcome.ret (resultSlice old data) err, conn, trace⟩
  else if data.length < n then
    -- data[:n] with n > len(data)
    Sum.inl ⟨Outcome.panic, conn, trace⟩
  else
    let trace := trace ++ [Effect.logf "modbus: recv % x\n" (data.take n)]
    match (data.take n).head? with
    | none => Sum.inl ⟨Outcome.panic, conn, trace⟩
    | some b =>
      if b = address then
        Sum.inl ⟨Outcome.ret (some (data.take n)) none, conn, trace⟩
      else
        Sum.inr ⟨n1, data, some n, conn, trace⟩

/-- One iteration of the `for` loop of `readResponse`: either the function ends, or the
loop goes round again with the new values of the variables. `none`: a read did not end
within its bound of `Read` calls. -/
def iteration (address function functionFail : Nat) (bytesToRead : Int) (s : Frame) :
    Option (Exit ⊕ Frame) :=
  -- n, err = io.ReadAtLeast(mb.conn, data[:], rtuMinSize)
  match ReadAtLeast s.conn s.data rtuMinSize with
  | none => none
  | some (n, err, data, conn) =>
    let trace := s.trace ++ [Effect.readAtLeast rtuMinSize n]
    if err ≠ none then
      some (Sum.inl ⟨Outcome.ret (resultSlice s.aduResponse data) err, conn, trace⟩)
    else if data.getD 1 0 = function then
      if (n : Int) < bytesToRead then
        if bytesToRead > rtuMinSize ∧ bytesToRead ≤ rtuMaxSize then
          -- n1, err = io.ReadFull(mb.conn, data[n:bytesToRead]); n += n1
          let hi := bytesToRead.toNat
          match ReadFull conn ((data.take hi).drop n) with
          | none => none
          | some (n1, err, buf, conn) =>
            some (validate address s.aduResponse (n + n1) n1 err
              (data.take n ++ buf ++ data.drop hi) conn
              (trace ++ [Effect.readFull n hi n1]))
        else some (validate address s.aduResponse n s.n1 none data conn trace)
      else some (validate address s.aduResponse n s.n1 none data conn trace)
    else if data.getD 1 0 = functionFail then
      if n < rtuExceptionSize then
        -- n1, err = io.ReadFull(mb.conn, data[n:rtuExceptionSize]); then n += n1
        match ReadFull conn ((data.take rtuExceptionSize).drop n) with
        | none => none
        | some (n1, err, buf, conn) =>
          some (validate address s.aduResponse (n + n1) n1 err
            (data.take n ++ buf ++ data.drop rtuExceptionSize) conn
            (trace ++ [Effect.readFull n rtuExceptionSize n1]))
      else
        -- n += n1 with the value n1 has kept
        some (validate address s.aduResponse (n + s.n1) s.n1 none data conn trace)
    else some (validate address s.aduResponse n s.n1 none data conn trace)

/-- The `for` loop of `readResponse`; the first argument bounds the number of iterations. -/
def readLoop (address function functionFail : Nat) (bytesToRead : Int) :
    Nat → Frame → Option Exit
  | 0, _ => none
  | fuel + 1, s =>
    match iteration address function functionFail bytesToRead s with
    | none => none
    | some (Sum.inl e) => some e
    | some (Sum.inr s') => readLoop address function functionFail bytesToRead fuel s'

/-- The frame with which the loop, entered at `s`, starts its iteration number `j`
(counted from 0), if it gets that far: every iteration before it has discarded a
frame and gone round again. -/
def frameAt (address function functionFail : Nat) (bytesToRead : Int) :
    Nat → Frame → Option Frame
  | 0, s => some s
  | j + 1, s =>
    match iteration address function functionFail bytesToRead s with
    | some (Sum.inr s') => frameAt address function functionFail bytesToRead j s'
    | _ => none

/-- The frame with which `readResponse` enters its loop. -/
def initialFrame (conn : Conn) (trace : List Effect) : Frame :=
  ⟨0, List.replicate rtuMaxSize 0, none, conn, trace⟩

/-- The method `readResponse` of `rtuTCPTransporter`. `calculateResponseLength` is
the frame length oracle of the packager, `conn` the connection `mb.conn`, `trace` the
operations performed before the call. An iteration that does not end the call takes at
least one byte off the connection, so one iteration per pending byte and one more always
suffice. -/
def readResponse (calculateResponseLength : List Nat → Int) (conn : Conn)
    (trace : List Effect) (aduRequest : List Nat) : Option Exit :=
  match aduRequest with
  | address :: function :: _ =>
    let functionFail := function &&& 0x80
    let bytesToRead := calculateResponseLength aduRequest
    readLoop address function functionFail bytesToRead (conn.pending.length + 1)
      (initialFrame conn trace)
  | _ =>
    -- aduRequest[0] or aduRequest[1] is out of range
    some ⟨Outcome.panic, conn, trace⟩

/-- The connection runs short in an iteration: the bytes `pending` it delivers before it
fails are fewer than the iteration asks for. Either they do not fill the initial read of
`rtuMinSize` bytes; or they do, their function byte is that of the request, and they
are fewer than the length `bytesToRead` of the oracle, which is at most `rtuMaxSize`
(the remainder read of the normal path comes up short); or they do, their function byte
is `functionFail`, and they are fewer than `rtuExceptionSize` (the remainder read of the
exception path comes up short). -/
def shortRead (function functionFail : Nat) (bytesToRead : Int) (pending : List Nat) : Prop :=
  pending.length < rtuMinSize
    ∨ (rtuMinSize ≤ pending.length ∧ pending.getD 1 0 = function
        ∧ (pending.length : Int) < bytesToRead ∧ bytesToRead ≤ rtuMaxSize)
    ∨ (rtuMinSize ≤ pending.length ∧ pending.length < rtuExceptionSize
        ∧ pending.getD 1 0 ≠ function ∧ pending.getD 1 0 = functionFail)

/-! ## `Send` -/

/-- The fields of `rtuTCPTransporter` (through the embedded `tcpTransporter`) that `Send`
reads or writes: the configuration, whether `mb.conn` is set, the time of last activity
and the idle timer (`none`: not armed; `some d`: armed to close the connection after `d`). -/
structure rtuTCPTransporter where
  Address : String
  Timeout : Int
  IdleTimeout : Int
  connected : Bool
  lastActivity : Int
  closeTimer : Option Int
  deriving DecidableEq, Repr

/-- What the surroundings answer during one call of `Send`: whether opening the
connection fails, the two readings of the clock, the outcome of the two `SetDeadline`
calls, what the draining read finds, whether the write fails, and how the connection
behaves for the reads of the reply. Times and durations are in nanoseconds. -/
structure World where
  dial : Option ConnError
  now1 : Int
  drainDeadline : Option ConnError
  stale : Conn
  now2 : Int
  setDeadline : Option ConnError
  write : Option ConnError
  reply : Conn
  deriving DecidableEq, Repr

/-- Modelled from the spec: the method `connect` of `tcpTransporter` is not part of the
sources at hand. If disconnected it opens a new stream connection to the configured
address and fails if the underlying open fails; if already connected it is a no-op. -/
def connect (mb : rtuTCPTransporter) (w : World) : rtuTCPTransporter × Option ConnError :=
  if mb.connected then (mb, none)
  else
    match w.dial with
    | none => ({ mb with connected := true }, none)
    | some e => (mb, some e)

/-- Modelled from the spec: the method `startCloseTimer` of `tcpTransporter` is not part
of the sources at hand. It (re)schedules the closure of the connection after the
configured inactivity timeout, replacing any closure scheduled before. -/
def startCloseTimer (mb : rtuTCPTransporter) : rtuTCPTransporter :=
  { mb with closeTimer := some mb.IdleTimeout }

/-- The end of a call of `Send`: the outcome, the transporter afterwards and the
operations performed, the deferred `Unlock` last. -/
structure SendExit where
  outcome : Outcome
  mb : rtuTCPTransporter
  trace : List Effect
  deriving DecidableEq, Repr

/-- The zero value of `time.Time`, which `SetDeadline` takes as "no deadline". -/
def zeroTime : Int := 0

/-- The duration `100 * time.Microsecond`. -/
def drainTimeout : Int := 100 * 1000

/-- Go's `io.ReadAll(r)`: it reads until a read fails and returns the bytes read, the
error (`nil` when the read failed with `EOF`) and the connection afterwards. -/
def ReadAll (r : Conn) : List Nat × Option ConnError × Conn :=
  (r.pending, if r.final = ConnError.EOF then none else some r.final, ⟨[], r.final⟩)

/-- The deadline `Send` computes for the exchange:
`var timeout time.Time; if mb.Timeout > 0 { timeout = mb.lastActivity.Add(mb.Timeout) }`. -/
def exchangeDeadline (mb : rtuTCPTransporter) : Int :=
  if mb.Timeout > 0 then mb.lastActivity + mb.Timeout else zeroTime

/-- The method `Send` of `rtuTCPTransporter`. -/
def Send (calculateResponseLength : List Nat → Int) (mb : rtuTCPTransporter) (w : World)
    (aduRequest : List Nat) : Option SendExit :=
  -- mb.mu.Lock(); defer mb.mu.Unlock()
  let trace := [Effect.lock]
  -- if err = mb.connect(); err != nil { return }
  let (mb, err) := connect mb w
  let trace := trace ++ [Effect.connect err]
  if err ≠ none then
    some ⟨Outcome.ret none err, mb, trace ++ [Effect.unlock]⟩
  else
    -- mb.conn.SetDeadline(time.Now().Add(100 * time.Microsecond)); io.ReadAll(mb.conn)
    -- (the results of both calls are dropped)
    let _drained := ReadAll w.stale
    let trace := trace ++ [Effect.setDeadline (w.now1 + drainTimeout) w.drainDeadline,
      Effect.readAll]
    -- mb.lastActivity = time.Now(); mb.startCloseTimer()
    let mb := { mb with lastActivity := w.now2 }
    let mb := startCloseTimer mb
    let trace := trace ++ [Effect.startCloseTimer]
    let timeout := exchangeDeadline mb
    -- if err = mb.conn.SetDeadline(timeout); err != nil { return }
    let err := w.setDeadline
    let trace := trace ++ [Effect.setDeadline timeout err]
    if err ≠ none then
      some ⟨Outcome.ret none err, mb, trace ++ [Effect.unlock]⟩
    else
      let trace := trace ++ [Effect.logf "modbus: send % x\n" aduRequest]
      -- if _, err = mb.conn.Write(aduRequest); err != nil { return }
      let err := w.write
      let trace := trace ++ [Effect.write aduRequest err]
      if err ≠ none then
        some ⟨Outcome.ret none err, mb, trace ++ [Effect.unlock]⟩
      else
        -- aduResponse, err = mb.readResponse(aduRequest); return
        match readResponse calculateResponseLength w.reply trace aduRequest with
        | none => none
        | some e => some ⟨e.outcome, mb, e.trace ++ [Effect.unlock]⟩

/-! ## The order of an exchange, the remainder-read condition, the constructor -/

/-- The reads of the reply: the calls of `io.ReadAtLeast` and `io.ReadFull` in
`readResponse`. -/
def Effect.isResponseRead : Effect → Bool
  | Effect.readAtLeast _ _ => true
  | Effect.readFull _ _ _ => true
  | _ => false

/-- The condition under which `readResponse` reads a remainder on the normal-reply
path, `n` being the count of the initial read:
`n < bytesToRead` and `bytesToRead > rtuMinSize && bytesToRead <= rtuMaxSize`. -/
def remainderReadCondition (n : Nat) (bytesToRead : Int) : Prop :=
  (n : Int) < bytesToRead ∧ (bytesToRead > rtuMinSize ∧ bytesToRead ≤ rtuMaxSize)

/-- The condition of the specification for the same read: fewer bytes were read than
the expected length, and the expected length is within the bounds from minimum to
maximum, both included. -/
def specRemainderReadCondition (n : Nat) (expectedLength : Int) : Prop :=
  (n : Int) < expectedLength
    ∧ ((rtuMinSize : Int) ≤ expectedLength ∧ expectedLength ≤ rtuMaxSize)

/-- The struct `RTUOverTCPClientHandler`, which embeds `rtuPackager` and
`rtuTCPTransporter`. The type `rtuPackager` is declared in the serial RTU client, which
is not part of the sources at hand; it is the parameter `Packager`. -/
structure RTUOverTCPClientHandler (Packager : Type) where
  packager : Packager
  transporter : rtuTCPTransporter

/-- The zero value of `rtuTCPTransporter`: no address, no timeouts, no connection, no
timer. -/
def zeroTransporter : rtuTCPTransporter :=
  ⟨"", 0, 0, false, zeroTime, none⟩

/-- The function `NewRTUOverTCPClientHandler`. The constants `tcpTimeout` and
`tcpIdleTimeout` are declared in the TCP client, which is not part of the sources at
hand; they are parameters, as is the zero value of the packager. -/
def NewRTUOverTCPClientHandler {Packager : Type} (zeroPackager : Packager)
    (tcpTimeout tcpIdleTimeout : Int) (address : String) :
    RTUOverTCPClientHandler Packager :=
  -- handler := &RTUOverTCPClientHandler{}
  let handler : RTUOverTCPClientHandler Packager := ⟨zeroPackager, zeroTransporter⟩
  -- handler.Address = address
  let handler := { handler with transporter := { handler.transporter with Address := address } }
  -- handler.Timeout = tcpTimeout
  let handler := { handler with transporter := { handler.transporter with Timeout := tcpTimeout } }
  -- handler.IdleTimeout = tcpIdleTimeout
  let handler :=
    { handler with transporter := { handler.transporter with IdleTimeout := tcpIdleTimeout } }
  handler

/-- The end of a call without the record of the operations performed. -/
def Exit.eraseTrace (x : Exit) : Exit := { x with trace := [] }

/-- The variables of the loop without the record of the operations performed. -/
def Frame.eraseTrace (s : Frame) : Frame := { s with trace := [] }

/-- The result of an iteration without the record of the operations performed. -/
def eraseStep : Exit ⊕ Frame → Exit ⊕ Frame
  | Sum.inl x => Sum.inl x.eraseTrace
  | Sum.inr s => Sum.inr s.eraseTrace

/-- The end of a call with the operations `t` recorded before its own. -/
def Exit.prependTrace (t : List Effect) (x : Exit) : Exit :=
  { x with trace := t ++ x.trace }

/-- The variables of the loop with the operations `t` recorded before their own. -/
def Frame.prependTrace (t : List Effect) (s : Frame) : Frame :=
  { s with trace := t ++ s.trace }

/-- The result of an iteration with the operations `t` recorded before its own. -/
def prependStep (t : List Effect) : Exit ⊕ Frame → Exit ⊕ Frame
  | Sum.inl x => Sum.inl (x.prependTrace t)
  | Sum.inr s => Sum.inr (s.prependTrace t)

/-! ## Reading from the stream -/

set_option maxRecDepth 10000000

theorem writeAt_nil (buf : List Nat) (n : Nat) : writeAt buf n [] = buf := by
  simp [writeAt]

theorem writeAt_length (buf : List Nat) (n : Nat) (bs : List Nat)
    (h : n + bs.length ≤ buf.length) : (writeAt buf n bs).length = buf.length := by
  simp only [writeAt, List.length_append, List.length_take, List.length_drop]
  omega

theorem writeAt_writeAt (buf : List Nat) (n : Nat) (a b : List Nat) (h : n ≤ buf.length) :
    writeAt (writeAt buf n a) (n + a.length) b = writeAt buf n (a ++ b) := by
  have h1 : (List.take n buf ++ a).length = n + a.length := by
    simp [List.length_take]; omega
  unfold writeAt
  rw [← h1, List.take_left, List.append_assoc (List.take n buf ++ a) b]
  rw [List.drop_append]
  simp only [List.drop_drop, List.append_assoc, List.length_append, h1]
  rw [Nat.add_assoc]

theorem writeAt_zero (buf bs : List Nat) : writeAt buf 0 bs = bs ++ buf.drop bs.length := by
  simp [writeAt]


theorem ReadAtLeastLoop_done (min fuel : Nat) (r : Conn) (buf : List Nat) (n : Nat)
    (err : Option ConnError) (h : ¬ (n < min ∧ err = none)) :
    ReadAtLeastLoop min fuel r buf n err = some (n, err, buf, r) := by
  cases fuel <;> simp only [ReadAtLeastLoop, h, if_false]

/-- With enough bytes pending, the loop of `ReadAtLeast` ends without error having
taken a front part of the stream of at least the missing length. -/
theorem ReadAtLeastLoop_enough (min : Nat) (e : ConnError) :
    ∀ (cs : List (List Nat)) (fuel : Nat) (buf : List Nat) (n : Nat),
      cs.length ≤ fuel → n ≤ buf.length → min ≤ buf.length →
      min ≤ n + cs.flatten.length →
      ∃ k cs', ReadAtLeastLoop min fuel ⟨cs, e⟩ buf n none
          = some (n + k, none, writeAt buf n (cs.flatten.take k), ⟨cs', e⟩)
        ∧ cs'.flatten = cs.flatten.drop k ∧ k ≤ cs.flatten.length
        ∧ min ≤ n + k ∧ n + k ≤ buf.length ∧ cs'.length ≤ cs.length := by
  intro cs
  induction cs with
  | nil =>
    intro fuel buf n _ hn _ hmin
    refine ⟨0, [], ?_, by simp, by simp, by simpa using hmin, by simpa using hn, by simp⟩
    rw [ReadAtLeastLoop_done _ _ _ _ _ _ (by simp at hmin; omega)]
    simp [writeAt_nil]
  | cons ch rest ih =>
    intro fuel buf n hfuel hn hbuf hmin
    have hP : (ch :: rest).flatten.length = ch.length + rest.flatten.length := by
      rw [List.flatten_cons, List.length_append]
    by_cases hdone : min ≤ n
    · refine ⟨0, ch :: rest, ?_, by simp, by simp, by simpa using hdone,
        by simpa using hn, by simp⟩
      rw [ReadAtLeastLoop_done _ _ _ _ _ _ (by omega)]
      simp [writeAt_nil]
    · have hlt : n < min ∧ (none : Option ConnError) = none := ⟨by omega, rfl⟩
      cases fuel with
      | zero => simp at hfuel
      | succ fuel =>
        simp only [List.length_cons, Nat.add_le_add_iff_right] at hfuel
        by_cases hfit : ch.length ≤ buf.length - n
        · have hmin' : min ≤ (n + ch.length) + rest.flatten.length := by omega
          have hwl : (writeAt buf n ch).length = buf.length :=
            writeAt_length _ _ _ (by omega)
          obtain ⟨k, cs', hrun, hfl, hk, hmk, hnk, hlen⟩ :=
            ih fuel (writeAt buf n ch) (n + ch.length) hfuel
              (by rw [hwl]; omega) (by rw [hwl]; exact hbuf) hmin'
          refine ⟨ch.length + k, cs', ?_, ?_, ?_, by omega, ?_, ?_⟩
          · simp only [ReadAtLeastLoop, hlt, and_self, if_true, Conn.Read, hfit]
            rw [hrun, writeAt_writeAt _ _ _ _ hn]
            simp [List.take_append_eq_append_take, Nat.add_assoc, List.take_of_length_le]
          · simp [hfl, List.drop_append_eq_append_drop, List.drop_of_length_le]
          · omega
          · rw [hwl] at hnk; omega
          · simp; omega
        · have hroom : buf.length - n < ch.length := by omega
          have htl : (List.take (buf.length - n) ch).length = buf.length - n := by
            rw [List.length_take]; omega
          refine ⟨buf.length - n, ch.drop (buf.length - n) :: rest, ?_, ?_, ?_,
            by omega, by omega, by simp⟩
          · simp only [ReadAtLeastLoop, hlt, and_self, if_true, Conn.Read, hfit, if_false]
            rw [ReadAtLeastLoop_done _ _ _ _ _ _ (by rw [htl]; omega), htl]
            simp [List.take_append_eq_append_take,
              show buf.length - n - ch.length = 0 by omega]
          · simp [List.drop_append_eq_append_drop,
              show buf.length - n - ch.length = 0 by omega]
          · omega

/-- With too few bytes pending, the loop of `ReadAtLeast` takes them all and ends with
the error of the connection. -/
theorem ReadAtLeastLoop_short (min : Nat) (e : ConnError) :
    ∀ (cs : List (List Nat)) (fuel : Nat) (buf : List Nat) (n : Nat),
      cs.length + 1 ≤ fuel → min ≤ buf.length → n + cs.flatten.length < min →
      ReadAtLeastLoop min fuel ⟨cs, e⟩ buf n none
        = some (n + cs.flatten.length, some e, writeAt buf n cs.flatten, ⟨[], e⟩) := by
  intro cs
  induction cs with
  | nil =>
    intro fuel buf n hfuel _ hshort
    cases fuel with
    | zero => simp at hfuel
    | succ fuel =>
      have hlt : n < min ∧ (none : Option ConnError) = none := ⟨by simp at hshort; omega, rfl⟩
      simp only [ReadAtLeastLoop, hlt, and_self, if_true, Conn.Read]
      rw [ReadAtLeastLoop_done _ _ _ _ _ _ (by simp)]
      simp [writeAt_nil]
  | cons ch rest ih =>
    intro fuel buf n hfuel hbuf hshort
    have hP : (ch :: rest).flatten.length = ch.length + rest.flatten.length := by
      rw [List.flatten_cons, List.length_append]
    cases fuel with
    | zero => simp at hfuel
    | succ fuel =>
      simp only [List.length_cons, Nat.add_le_add_iff_right] at hfuel
      have hlt : n < min ∧ (none : Option ConnError) = none := ⟨by omega, rfl⟩
      have hfit : ch.length ≤ buf.length - n := by omega
      have hwl : (writeAt buf n ch).length = buf.length := writeAt_length _ _ _ (by omega)
      simp only [ReadAtLeastLoop, hlt, and_self, if_true, Conn.Read, hfit]
      rw [ih fuel (writeAt buf n ch) (n + ch.length) hfuel (by rw [hwl]; exact hbuf)
        (by omega), writeAt_writeAt _ _ _ _ (by omega)]
      simp [Nat.add_assoc]

/-- The call `ReadAtLeast` on a connection holding at least `min` bytes: it succeeds
with a count between `min` and the size of the buffer and stores that front part of the
stream at the front of the buffer. -/
theorem ReadAtLeast_enough (cs : List (List Nat)) (e : ConnError) (buf : List Nat)
    (min : Nat) (hbuf : min ≤ buf.length) (hmin : min ≤ cs.flatten.length) :
    ∃ k cs', ReadAtLeast ⟨cs, e⟩ buf min
        = some (k, none, cs.flatten.take k ++ buf.drop k, ⟨cs', e⟩)
      ∧ cs'.flatten = cs.flatten.drop k ∧ k ≤ cs.flatten.length
      ∧ min ≤ k ∧ k ≤ buf.length ∧ cs'.length ≤ cs.length := by
  obtain ⟨k, cs', hrun, hfl, hk, hmk, hnk, hlen⟩ :=
    ReadAtLeastLoop_enough min e cs (cs.length + 1) buf 0 (by omega) (by omega) hbuf
      (by omega)
  refine ⟨k, cs', ?_, hfl, hk, by omega, by omega, hlen⟩
  have hk' : (List.take k cs.flatten).length = k := by rw [List.length_take]; omega
  simp only [ReadAtLeast, show ¬ buf.length < min by omega, if_false, hrun, Nat.zero_add,
    show min ≤ k by omega, if_true, writeAt_zero, hk']

/-- The call `ReadAtLeast` on a connection holding fewer than `min` bytes: it fails. -/
theorem ReadAtLeast_short (cs : List (List Nat)) (e : ConnError) (buf : List Nat)
    (min : Nat) (hbuf : min ≤ buf.length) (hshort : cs.flatten.length < min) :
    ReadAtLeast ⟨cs, e⟩ buf min
      = some (cs.flatten.length, some (shortError cs.flatten.length e),
          cs.flatten ++ buf.drop cs.flatten.length, ⟨[], e⟩) := by
  have hrun := ReadAtLeastLoop_short min e cs (cs.length + 1) buf 0 (by omega) hbuf
    (by omega)
  simp only [ReadAtLeast, show ¬ buf.length < min by omega, if_false, hrun, Nat.zero_add,
    show ¬ min ≤ cs.flatten.length by omega, writeAt_zero, shortError]
  by_cases h : 0 < cs.flatten.length ∧ e = ConnError.EOF
  · have h' : 0 < cs.flatten.length ∧ some e = some ConnError.EOF := by
      simpa using h
    simp only [h, h', and_self, if_true]
  · have h' : ¬ (0 < cs.flatten.length ∧ some e = some ConnError.EOF) := by
      simpa using h
    simp only [h, h', if_false]

/-! ## One iteration of the framing loop -/

theorem validate_accept (address : Nat) (old : Option Nat) (n1 : Nat) (tail rest : List Nat)
    (conn : Conn) (tr : List Effect) :
    validate address old (address :: tail).length n1 none ((address :: tail) ++ rest) conn tr
      = Sum.inl ⟨Outcome.ret (some (address :: tail)) none, conn,
          tr ++ [Effect.logf "modbus: recv % x\n" (address :: tail)]⟩ := by
  simp [validate]

theorem validate_retry (address b : Nat) (hb : b ≠ address) (old : Option Nat) (n1 : Nat)
    (tail rest : List Nat) (conn : Conn) (tr : List Effect) :
    validate address old (b :: tail).length n1 none ((b :: tail) ++ rest) conn tr
      = Sum.inr ⟨n1, (b :: tail) ++ rest, some (b :: tail).length, conn,
          tr ++ [Effect.logf "modbus: recv % x\n" (b :: tail)]⟩ := by
  simp [validate, hb]

/-- An iteration that finds exactly a normal reply of the predicted length pending,
in whatever chunks, assembles it; the address check then decides. -/
theorem iteration_normal (address function functionFail : Nat) (s : Frame)
    (cs : List (List Nat)) (e : ConnError) (b : Nat) (tail F : List Nat)
    (hF : F = b :: function :: tail)
    (hs : s.conn = ⟨cs, e⟩) (hdata : s.data.length = rtuMaxSize)
    (hcs : cs.flatten = F) (hmin : rtuMinSize ≤ F.length) (hmax : F.length ≤ rtuMaxSize) :
    ∃ n1 conn tr,
      iteration address function functionFail (F.length : Nat) s
        = some (validate address s.aduResponse F.length n1 none
            (F ++ s.data.drop F.length) conn tr) := by
  obtain ⟨k, cs', hRA, hfl, hk, hmk, hnk, hlen⟩ :=
    ReadAtLeast_enough cs e s.data rtuMinSize (by rw [hdata]; decide) (by rw [hcs]; exact hmin)
  simp only [iteration, hs, hRA]
  rw [hcs] at hk hfl
  rw [hcs]
  have hk2 : 2 ≤ k := by simp only [rtuMinSize] at hmk; omega
  have hget : (List.take k F ++ List.drop k s.data).getD 1 0 = function := by
    obtain ⟨k', rfl⟩ : ∃ k', k = k' + 2 := ⟨k - 2, by omega⟩
    rw [hF]; simp
  have htk : (List.take k F).length = k := by rw [List.length_take]; omega
  simp only [ne_eq, not_true_eq_false, if_false, hget, if_true]
  by_cases hlt : k < F.length
  · have hbounds : (F.length : Int) > (rtuMinSize : Int) ∧ (F.length : Int) ≤ (rtuMaxSize : Int) := by
      constructor <;> omega
    have hbuf2 : List.drop k (List.take F.length (List.take k F ++ List.drop k s.data))
        = List.take (F.length - k) (List.drop k s.data) := by
      rw [List.take_append_eq_append_take, htk,
        List.take_of_length_le (by rw [htk]; omega), List.drop_append_eq_append_drop, htk,
        List.drop_of_length_le (by rw [htk]), Nat.sub_self, List.drop_zero,
        List.nil_append]
    have hb2l : (List.take (F.length - k) (List.drop k s.data)).length = F.length - k := by
      rw [List.length_take, List.length_drop]; omega
    obtain ⟨k2, cs2, hRF, -, hk2a, hk2b, hk2c, -⟩ :=
      ReadAtLeast_enough cs' e (List.take (F.length - k) (List.drop k s.data))
        (F.length - k) (by omega) (by rw [hfl, List.length_drop])
    have hk2e : k2 = F.length - k := by omega
    subst hk2e
    have hA : List.take k (List.take k F ++ List.drop k s.data) = List.take k F :=
      List.take_left' htk
    have hB : List.take (F.length - k) cs'.flatten = List.drop k F := by
      rw [hfl]; exact List.take_of_length_le (by rw [List.length_drop])
    have hC : List.drop (F.length - k) (List.take (F.length - k) (List.drop k s.data))
        = [] := List.drop_of_length_le (by rw [hb2l])
    have hD : List.drop F.length (List.take k F ++ List.drop k s.data)
        = List.drop F.length s.data := by
      rw [List.drop_append_eq_append_drop, htk,
        List.drop_of_length_le (by rw [htk]; omega), List.nil_append, List.drop_drop]
      congr 1; omega
    refine ⟨F.length - k, ⟨cs2, e⟩, s.trace ++ [Effect.readAtLeast rtuMinSize k] ++
      [Effect.readFull k F.length (F.length - k)], ?_⟩
    simp only [Int.ofNat_lt, hlt, if_true, hbounds, and_self, Int.toNat_ofNat, hbuf2,
      ReadFull, hb2l, hRF, hA, hB, hC, hD, List.append_nil, List.take_append_drop,
      show k + (F.length - k) = F.length by omega]
  · have hke : k = F.length := by omega
    refine ⟨s.n1, ⟨cs', e⟩, s.trace ++ [Effect.readAtLeast rtuMinSize k], ?_⟩
    simp only [Int.ofNat_lt, hlt, if_false]
    rw [hke, List.take_length]

/-- C1. For a request with address `address` and function `function`, if the connection
holds exactly a reply frame of the length the oracle predicts (between `rtuMinSize` and
`rtuMaxSize`) that starts with the same address and function bytes, then, however the
connection cuts the frame into chunks, `readResponse` returns that frame unchanged with
no error. -/
theorem readResponse_returns_normal_reply (calculateResponseLength : List Nat → Int)
    (address function : Nat) (reqTail tail : List Nat) (cs : List (List Nat))
    (e : ConnError) (trace : List Effect)
    (hL : calculateResponseLength (address :: function :: reqTail)
      = ((address :: function :: tail).length : Nat))
    (hmin : rtuMinSize ≤ (address :: function :: tail).length)
    (hmax : (address :: function :: tail).length ≤ rtuMaxSize)
    (hcs : cs.flatten = address :: function :: tail) :
    ∃ x, readResponse calculateResponseLength ⟨cs, e⟩ trace (address :: function :: reqTail)
        = some x
      ∧ x.outcome = Outcome.ret (some (address :: function :: tail)) none := by
  obtain ⟨n1, conn, tr, hit⟩ :=
    iteration_normal address function (function &&& 0x80)
      ⟨0, List.replicate rtuMaxSize 0, none, ⟨cs, e⟩, trace⟩ cs e address tail
      (address :: function :: tail) rfl rfl (by simp) hcs hmin hmax
  rw [validate_accept] at hit
  simp only [readResponse, initialFrame, hL, readLoop, hit]
  exact ⟨_, rfl, rfl⟩

/-! ## What every iteration guarantees -/

theorem ReadAtLeast_spec (cs : List (List Nat)) (e : ConnError) (buf : List Nat) (min : Nat)
    (hbuf : min ≤ buf.length) :
    ∃ n err buf' cs', ReadAtLeast ⟨cs, e⟩ buf min = some (n, err, buf', ⟨cs', e⟩)
      ∧ buf'.length = buf.length ∧ cs'.flatten.length + n = cs.flatten.length
      ∧ (err = none → min ≤ n) ∧ (err ≠ none → n < min) ∧ n ≤ buf.length := by
  by_cases h : min ≤ cs.flatten.length
  · obtain ⟨k, cs', hRA, hfl, hk, hmk, hnk, -⟩ := ReadAtLeast_enough cs e buf min hbuf h
    refine ⟨k, none, _, cs', hRA, ?_, ?_, fun _ => hmk, by simp, hnk⟩
    · rw [List.length_append, List.length_take, List.length_drop]; omega
    · rw [hfl, List.length_drop]; omega
  · refine ⟨_, _, _, [], ReadAtLeast_short cs e buf min hbuf (by omega), ?_, by simp,
      by simp, fun _ => by omega, by omega⟩
    rw [List.length_append, List.length_drop]; omega

theorem validate_spec (address : Nat) (old : Option Nat) (n n1 : Nat)
    (err : Option ConnError) (data : List Nat) (conn : Conn) (tr : List Effect)
    (hn : err = none → rtuMinSize ≤ n) :
    (∀ x, validate address old n n1 err data conn tr = Sum.inl x →
      x.conn = conn ∧ (∃ ops, x.trace = tr ++ ops ∧ ∀ o ∈ ops, o.isFramer = true)
        ∧ x.outcome.Sound address)
    ∧ (∀ s', validate address old n n1 err data conn tr = Sum.inr s' →
      s'.data = data ∧ s'.conn = conn
        ∧ ∃ ops, s'.trace = tr ++ ops ∧ ∀ o ∈ ops, o.isFramer = true) := by
  unfold validate
  by_cases herr : err = none
  · subst herr
    have h4 := hn rfl
    by_cases hlen : data.length < n
    · simp only [ne_eq, not_true_eq_false, if_false, hlen, if_true]
      refine ⟨?_, by simp⟩
      rintro x ⟨rfl⟩
      exact ⟨rfl, ⟨[], by simp⟩, by intro resp h; cases h⟩
    · simp only [ne_eq, not_true_eq_false, if_false, hlen]
      cases hh : (List.take n data).head? with
      | none =>
        refine ⟨?_, by simp⟩
        rintro x ⟨rfl⟩
        exact ⟨rfl, ⟨_, rfl, by simp [Effect.isFramer]⟩, by intro resp h; cases h⟩
      | some b =>
        by_cases hb : b = address
        · simp only [hb, if_true]
          refine ⟨?_, by simp⟩
          rintro x ⟨rfl⟩
          refine ⟨rfl, ⟨_, rfl, by simp [Effect.isFramer]⟩, ?_⟩
          intro resp h
          injection h with h1 h2
          refine ⟨_, h1.symm, ?_, by rw [hh, hb]⟩
          rw [List.length_take]; omega
        · simp only [hb, if_false]
          refine ⟨by simp, ?_⟩
          rintro s' ⟨rfl⟩
          exact ⟨rfl, rfl, _, rfl, by simp [Effect.isFramer]⟩
  · simp only [ne_eq, herr, not_false_eq_true, if_true]
    refine ⟨?_, by simp⟩
    rintro x ⟨rfl⟩
    refine ⟨rfl, ⟨[], by simp⟩, ?_⟩
    intro resp h
    injection h with h1 h2
    exact absurd h2 herr


theorem validate_leaf (address : Nat) (s : Frame) (n n1 : Nat) (err : Option ConnError)
    (data : List Nat) (conn : Conn) (tr : List Effect)
    (hdata : data.length = rtuMaxSize) (hn : err = none → rtuMinSize ≤ n)
    (hfin : conn.final = s.conn.final)
    (hpend : conn.pending.length + rtuMinSize ≤ s.conn.pending.length)
    (htr : ∃ ops, tr = s.trace ++ ops ∧ ∀ o ∈ ops, o.isFramer = true) :
    StepPost address s (validate address s.aduResponse n n1 err data conn tr) := by
  obtain ⟨hl, hr⟩ := validate_spec address s.aduResponse n n1 err data conn tr hn
  obtain ⟨ops0, rfl, hops0⟩ := htr
  cases hv : validate address s.aduResponse n n1 err data conn (s.trace ++ ops0) with
  | inl x =>
    obtain ⟨hc, ⟨ops, hx, hops⟩, hsound⟩ := hl x hv
    refine ⟨⟨ops0 ++ ops, by rw [hx, List.append_assoc], ?_⟩, hsound, by rw [hc, hfin],
      by rw [hc]; omega⟩
    intro o ho
    rcases List.mem_append.1 ho with h | h
    · exact hops0 o h
    · exact hops o h
  | inr s' =>
    obtain ⟨hd, hc, ops, hx, hops⟩ := hr s' hv
    refine ⟨by rw [hd, hdata], by rw [hc]; exact hpend, by rw [hc, hfin],
      ops0 ++ ops, by rw [hx, List.append_assoc], ?_⟩
    intro o ho
    rcases List.mem_append.1 ho with h | h
    · exact hops0 o h
    · exact hops o h

/-- Every iteration ends (no read runs out of its bound) and meets its postcondition. -/
theorem iteration_spec (address function functionFail : Nat) (bytesToRead : Int) (s : Frame)
    (hdata : s.data.length = rtuMaxSize) :
    ∃ r, iteration address function functionFail bytesToRead s = some r
      ∧ StepPost address s r := by
  obtain ⟨n, err, data, cs', hRA, hdl, hpl, hok, hbad, hnl⟩ :=
    ReadAtLeast_spec s.conn.chunks s.conn.final s.data rtuMinSize (by rw [hdata]; decide)
  have hRA' : ReadAtLeast s.conn s.data rtuMinSize
      = some (n, err, data, ⟨cs', s.conn.final⟩) := hRA
  simp only [iteration, hRA']
  have htr : ∃ ops, s.trace ++ [Effect.readAtLeast rtuMinSize n] = s.trace ++ ops
      ∧ ∀ o ∈ ops, o.isFramer = true := ⟨_, rfl, by simp [Effect.isFramer]⟩
  by_cases herr : err = none
  · subst herr
    have h4 : rtuMinSize ≤ n := hok rfl
    have hpend : (Conn.mk cs' s.conn.final).pending.length + rtuMinSize
        ≤ s.conn.pending.length := by
      simp only [Conn.pending]; omega
    have hd : data.length = rtuMaxSize := by rw [hdl, hdata]
    have leaf : ∀ m, rtuMinSize ≤ m → StepPost address s
        (validate address s.aduResponse m s.n1 none data ⟨cs', s.conn.final⟩
          (s.trace ++ [Effect.readAtLeast rtuMinSize n])) := fun m hm =>
      validate_leaf address s m s.n1 none data _ _ hd (fun _ => hm) rfl hpend htr
    have full : ∀ hi, n < hi → hi ≤ rtuMaxSize →
        ∃ r, (match ReadFull ⟨cs', s.conn.final⟩ ((data.take hi).drop n) with
          | none => none
          | some (n1, err, buf, conn) =>
            some (validate address s.aduResponse (n + n1) n1 err
              (data.take n ++ buf ++ data.drop hi) conn
              (s.trace ++ [Effect.readAtLeast rtuMinSize n] ++ [Effect.readFull n hi n1])))
          = some r ∧ StepPost address s r := by
      intro hi hlo hhi
      obtain ⟨n1, err1, buf2, cs2, hRF, hb2, hp2, -, -, -⟩ :=
        ReadAtLeast_spec cs' s.conn.final ((data.take hi).drop n)
          ((data.take hi).drop n).length (le_refl _)
      simp only [ReadFull, hRF]
      refine ⟨_, rfl, validate_leaf address s _ _ _ _ _ _ ?_ (fun _ => by omega) rfl ?_ ?_⟩
      · simp only [List.length_append, List.length_take, List.length_drop, hb2]
        omega
      · simp only [Conn.pending] at hpend ⊢; omega
      · exact ⟨_, by rw [List.append_assoc], by simp [Effect.isFramer]⟩
    simp only [ne_eq, not_true_eq_false, if_false]
    by_cases hf : data.getD 1 0 = function
    · simp only [hf, if_true]
      by_cases hlt : (n : Int) < bytesToRead
      · simp only [hlt, if_true]
        by_cases hb : bytesToRead > (rtuMinSize : Int) ∧ bytesToRead ≤ (rtuMaxSize : Int)
        · simp only [hb, and_self, if_true]
          exact full bytesToRead.toNat (by omega) (by omega)
        · simp only [hb, if_false]
          exact ⟨_, rfl, leaf n h4⟩
      · simp only [hlt, if_false]
        exact ⟨_, rfl, leaf n h4⟩
    · simp only [hf, if_false]
      by_cases hff : data.getD 1 0 = functionFail
      · simp only [hff, if_true]
        by_cases hx : n < rtuExceptionSize
        · simp only [hx, if_true]
          exact full rtuExceptionSize hx (by decide)
        · simp only [hx, if_false]
          exact ⟨_, rfl, leaf (n + s.n1) (by omega)⟩
      · simp only [hff, if_false]
        exact ⟨_, rfl, leaf n h4⟩
  · simp only [ne_eq, herr, not_false_eq_true, if_true]
    refine ⟨_, rfl, htr, ?_, rfl, ?_⟩
    · intro resp h
      injection h with h1 h2
      exact absurd h2 herr
    · simp only [Conn.pending]; omega

/-- The loop ends within one iteration per pending byte and one more, and its end
meets the postcondition. -/
theorem readLoop_spec (address function functionFail : Nat) (bytesToRead : Int) :
    ∀ (fuel : Nat) (s : Frame), s.data.length = rtuMaxSize →
      s.conn.pending.length < fuel →
      ∃ x, readLoop address function functionFail bytesToRead fuel s = some x
        ∧ ExitPost address s x := by
  intro fuel
  induction fuel with
  | zero => intro s _ h; exact absurd h (Nat.not_lt_zero _)
  | succ fuel ih =>
    intro s hdata hfuel
    obtain ⟨r, hit, hpost⟩ := iteration_spec address function functionFail bytesToRead s hdata
    cases r with
    | inl x => exact ⟨x, by simp only [readLoop, hit], hpost⟩
    | inr s' =>
      obtain ⟨hd', hp', hf', ops1, ht1, hops1⟩ := hpost
      have h4 : 0 < rtuMinSize := by decide
      obtain ⟨x, hx, ⟨ops2, ht2, hops2⟩, hsound, hfin, hpend⟩ := ih s' hd' (by omega)
      refine ⟨x, by simp only [readLoop, hit, hx], ⟨ops1 ++ ops2, ?_, ?_⟩, hsound,
        by rw [hfin, hf'], by omega⟩
      · rw [ht2, ht1, List.append_assoc]
      · intro o ho
        rcases List.mem_append.1 ho with h | h
        · exact hops1 o h
        · exact hops2 o h

/-- The call `readResponse` always ends; the operations it performs are operations of
the framing loop; for a request of at least two bytes its outcome is no false accept. -/
theorem readResponse_spec (calculateResponseLength : List Nat → Int) (conn : Conn)
    (trace : List Effect) (aduRequest : List Nat) :
    ∃ x, readResponse calculateResponseLength conn trace aduRequest = some x
      ∧ (∃ ops, x.trace = trace ++ ops ∧ ∀ o ∈ ops, o.isFramer = true)
      ∧ (∀ address function rest, aduRequest = address :: function :: rest →
          x.outcome.Sound address)
      ∧ x.conn.final = conn.final ∧ x.conn.pending.length ≤ conn.pending.length := by
  match aduRequest with
  | [] => exact ⟨_, rfl, ⟨[], by simp⟩, by simp, rfl, le_refl _⟩
  | [_] => exact ⟨_, rfl, ⟨[], by simp⟩, by simp, rfl, le_refl _⟩
  | address :: function :: rest =>
    obtain ⟨x, hx, htr, hsound, hfin, hpend⟩ :=
      readLoop_spec address function (function &&& 0x80)
        (calculateResponseLength (address :: function :: rest)) (conn.pending.length + 1)
        ⟨0, List.replicate rtuMaxSize 0, none, conn, trace⟩ (by simp) (Nat.lt_succ_self _)
    refine ⟨x, by simp only [readResponse, initialFrame, hx], htr, ?_, hfin, hpend⟩
    intro a f r h
    injection h with h1 _
    subst h1
    exact hsound

/-- C3. There is never a false accept: for every oracle, every behaviour of the
connection and every request of at least two bytes, `readResponse` ends, and if it
returns with no error then what it returns is a frame of at least `rtuMinSize` bytes
whose first byte is the address byte of the request. -/
theorem readResponse_never_false_accept (calculateResponseLength : List Nat → Int)
    (conn : Conn) (trace : List Effect) (address function : Nat) (rest : List Nat) :
    ∃ x, readResponse calculateResponseLength conn trace (address :: function :: rest)
        = some x
      ∧ ∀ aduResponse, x.outcome = Outcome.ret aduResponse none →
          ∃ F, aduResponse = some F ∧ rtuMinSize ≤ F.length ∧ F.head? = some address := by
  obtain ⟨x, hx, -, hsound, -, -⟩ :=
    readResponse_spec calculateResponseLength conn trace (address :: function :: rest)
  exact ⟨x, hx, hsound address function rest rfl⟩

/-! ## Stray frames -/

/-- A chunk that fills the minimum and fits the buffer is all the first read takes. -/
theorem ReadAtLeast_own_read (S : List Nat) (cs : List (List Nat)) (e : ConnError)
    (buf : List Nat) (min : Nat) (h0 : 0 < min) (hmin : min ≤ S.length)
    (hfit : S.length ≤ buf.length) :
    ReadAtLeast ⟨S :: cs, e⟩ buf min
      = some (S.length, none, S ++ buf.drop S.length, ⟨cs, e⟩) := by
  have hlt : 0 < min ∧ (none : Option ConnError) = none := ⟨h0, rfl⟩
  simp only [ReadAtLeast, show ¬ buf.length < min by omega, if_false, ReadAtLeastLoop, hlt,
    and_self, if_true, Conn.Read, Nat.sub_zero, hfit, Nat.zero_add, writeAt_zero,
    show ¬ S.length < min by omega, false_and, if_false, hmin]

/-- An iteration that reads, as one chunk, a frame for another address which calls for
no remainder read discards it and leaves the rest of the stream untouched. -/
theorem iteration_stray (address function functionFail : Nat) (bytesToRead : Int)
    (s : Frame) (b g : Nat) (stail : List Nat) (cs : List (List Nat)) (e : ConnError)
    (hs : s.conn = ⟨(b :: g :: stail) :: cs, e⟩) (hdata : s.data.length = rtuMaxSize)
    (hn1 : s.n1 = 0) (hb : b ≠ address)
    (hSmin : rtuMinSize ≤ (b :: g :: stail).length)
    (hSmax : (b :: g :: stail).length ≤ rtuMaxSize)
    (hnormal : g = function → bytesToRead ≤ ((b :: g :: stail).length : Nat))
    (hexc : g = functionFail → g ≠ function → rtuExceptionSize ≤ (b :: g :: stail).length) :
    ∃ tr, iteration address function functionFail bytesToRead s
      = some (Sum.inr ⟨0, (b :: g :: stail) ++ s.data.drop (b :: g :: stail).length,
          some (b :: g :: stail).length, ⟨cs, e⟩, tr⟩) := by
  have hRA := ReadAtLeast_own_read (b :: g :: stail) cs e s.data rtuMinSize (by decide)
    hSmin (by rw [hdata]; exact hSmax)
  simp only [iteration, hs, hRA, ne_eq, not_true_eq_false, if_false]
  have hget : ((b :: g :: stail) ++ List.drop (b :: g :: stail).length s.data).getD 1 0 = g := by
    simp
  rw [hget]
  have hv := fun tr => validate_retry address b hb s.aduResponse 0 (g :: stail)
    (List.drop (b :: g :: stail).length s.data) ⟨cs, e⟩ tr
  by_cases hf : g = function
  · have hnl : ¬ (((b :: g :: stail).length : Nat) : Int) < bytesToRead := by
      have := hnormal hf; omega
    simp only [hf, if_true] at hnl ⊢
    simp only [hnl, if_false, hn1]
    rw [← hf, hv]
    exact ⟨_, rfl⟩
  · simp only [hf, if_false]
    by_cases hff : g = functionFail
    · have hx : ¬ (b :: g :: stail).length < rtuExceptionSize := by
        have := hexc hff hf; omega
      simp only [hff, if_true] at hx ⊢
      simp only [hx, if_false, hn1, Nat.add_zero]
      rw [← hff, hv]
      exact ⟨_, rfl⟩
    · simp only [hff, if_false, hn1]
      rw [hv]
      exact ⟨_, rfl⟩

/-- C4, as amended. For a request with address `address` and function `function`: if
the connection first delivers, as one read, a complete frame `b :: g :: stail` of
between `rtuMinSize` and `rtuMaxSize` bytes whose address byte `b` differs from
`address` and which is whole as the framer reads it (if its function byte `g` is
`function` it is at least as long as the oracle predicts, otherwise it has at least
`rtuExceptionSize` bytes), and then holds exactly the normal reply of the predicted
length for `address`, in whatever chunks, then `readResponse` discards the first frame
and returns exactly that reply with no error. -/
theorem readResponse_discards_stray_frame (calculateResponseLength : List Nat → Int)
    (address function b g : Nat) (reqTail stail tail : List Nat) (cs : List (List Nat))
    (e : ConnError) (trace : List Effect)
    (hb : b ≠ address)
    (hSmin : rtuMinSize ≤ (b :: g :: stail).length)
    (hSmax : (b :: g :: stail).length ≤ rtuMaxSize)
    (hL : calculateResponseLength (address :: function :: reqTail)
      = ((address :: function :: tail).length : Nat))
    (hmin : rtuMinSize ≤ (address :: function :: tail).length)
    (hmax : (address :: function :: tail).length ≤ rtuMaxSize)
    (hnormal : g = function →
      (address :: function :: tail).length ≤ (b :: g :: stail).length)
    (hother : g ≠ function → rtuExceptionSize ≤ (b :: g :: stail).length)
    (hcs : cs.flatten = address :: function :: tail) :
    ∃ x, readResponse calculateResponseLength ⟨(b :: g :: stail) :: cs, e⟩ trace
        (address :: function :: reqTail) = some x
      ∧ x.outcome = Outcome.ret (some (address :: function :: tail)) none := by
  obtain ⟨tr1, h1⟩ :=
    iteration_stray address function (function &&& 0x80)
      ((address :: function :: tail).length : Nat)
      ⟨0, List.replicate rtuMaxSize 0, none, ⟨(b :: g :: stail) :: cs, e⟩, trace⟩
      b g stail cs e rfl (by simp) rfl hb hSmin hSmax
      (fun h => by have := hnormal h; omega) (fun _ hne => hother hne)
  obtain ⟨n1, conn, tr, h2⟩ :=
    iteration_normal address function (function &&& 0x80)
      ⟨0, (b :: g :: stail) ++ (List.replicate rtuMaxSize 0).drop (b :: g :: stail).length,
        some (b :: g :: stail).length, ⟨cs, e⟩, tr1⟩ cs e address tail
      (address :: function :: tail) rfl rfl
      (by simp only [List.length_append, List.length_drop, List.length_replicate]; omega)
      hcs hmin hmax
  rw [validate_accept] at h2
  obtain ⟨m, hm⟩ : ∃ m, (Conn.mk ((b :: g :: stail) :: cs) e).pending.length + 1 = m + 2 :=
    ⟨stail.length + cs.flatten.length + 1, by
      simp only [Conn.pending, List.flatten_cons, List.length_append, List.length_cons]
      omega⟩
  simp only [readResponse, initialFrame, hL, hm, readLoop, h1, h2]
  exact ⟨_, rfl, rfl⟩



/-! ## Runs on concrete connections -/

/-- Witness of C1: a 7-byte reply to a read of one holding register, delivered as 4 bytes
and then 3 bytes. -/
theorem readResponse_returns_normal_reply_witness :
    ∃ x, readResponse (fun _ => 7) ⟨[[1, 3, 2, 0], [5, 120, 71]], ConnError.timeout⟩ []
        [1, 3, 0, 0, 0, 1, 132, 10] = some x
      ∧ x.outcome = Outcome.ret (some [1, 3, 2, 0, 5, 120, 71]) none :=
  readResponse_returns_normal_reply (fun _ => 7) 1 3 [0, 0, 0, 1, 132, 10] [2, 0, 5, 120, 71]
    [[1, 3, 2, 0], [5, 120, 71]] ConnError.timeout [] (by rfl) (by decide) (by decide) (by rfl)

/-- C2, the code at the failing input: the request reads one holding register from
device 1 (function 3, the oracle predicts 7 bytes) and the device answers with the
exception reply `01 83 02 C0 F1`, delivered as 4 bytes and then 1 byte. `readResponse`
returns the first 4 bytes with no error and leaves the last byte on the connection:
the reply is not taken down the exception path, because `functionFail` is
`function & 0x80 = 0`, not `function | 0x80 = 0x83`. -/
theorem readResponse_exception_reply_cut_short :
    (readResponse (fun _ => 7) ⟨[[1, 131, 2, 192], [241]], ConnError.timeout⟩ []
        [1, 3, 0, 0, 0, 1, 132, 10]).map (fun x => (x.outcome, x.conn.pending))
      = some (Outcome.ret (some [1, 131, 2, 192]) none, [241]) := by
  decide

/-- Counterexample to C4 as stated: the request reads two holding registers from device 1
(the oracle predicts 9 bytes); the connection first delivers, as one read, the complete
7-byte reply `02 03 02 00 09 3C 42` of device 2 and then, as one read, the correct 9-byte
reply of device 1. The first iteration completes the stray frame to 9 bytes with the
first 2 bytes of the correct reply, so the correct reply is never assembled and the
call ends with the error of the connection. -/
theorem readResponse_stray_frame_eats_reply :
    (readResponse (fun _ => 9)
        ⟨[[2, 3, 2, 0, 9, 60, 66], [1, 3, 4, 0, 5, 0, 6, 106, 48]], ConnError.timeout⟩ []
        [1, 3, 0, 0, 0, 2, 196, 11]).map Exit.outcome
      = some (Outcome.ret (some [4, 0, 5, 0, 6, 106, 48, 1, 3]) (some ConnError.timeout)) := by
  decide

/-- Witness of C4 as amended: the stray frame is the exception reply `02 83 02 30 F1` of
device 2, the reply that follows arrives as 4 bytes and then 3 bytes. -/
theorem readResponse_discards_stray_frame_witness :
    ∃ x, readResponse (fun _ => 7)
        ⟨[2, 131, 2, 48, 241] :: [[1, 3, 2, 0], [5, 120, 71]], ConnError.timeout⟩ []
        [1, 3, 0, 0, 0, 1, 132, 10] = some x
      ∧ x.outcome = Outcome.ret (some [1, 3, 2, 0, 5, 120, 71]) none :=
  readResponse_discards_stray_frame (fun _ => 7) 1 3 2 131 [0, 0, 0, 1, 132, 10] [2, 48, 241]
    [2, 0, 5, 120, 71] [[1, 3, 2, 0], [5, 120, 71]] ConnError.timeout []
    (by decide) (by decide) (by decide) (by rfl) (by decide) (by decide)
    (by decide) (by decide) (by rfl)

/-- C5, the code at the failing input: the request reads one holding register from
device 1; the connection delivers the complete 7-byte reply `02 03 02 00 09 3C 42` of
device 2 and then nothing more before the deadline. `readResponse` returns the timeout
error together with the 7 bytes of the discarded frame, not with a `nil` response: the
named result `aduResponse` was assigned before the address check of the first
iteration. -/
theorem readResponse_error_with_discarded_frame :
    (readResponse (fun _ => 7) ⟨[[2, 3, 2, 0, 9, 60, 66]], ConnError.timeout⟩ []
        [1, 3, 0, 0, 0, 1, 132, 10]).map Exit.outcome
      = some (Outcome.ret (some [2, 3, 2, 0, 9, 60, 66]) (some ConnError.timeout)) := by
  decide

/-- C6, the code at the failing input: the request reads one holding register from
device 1 (the oracle predicts 7 bytes); the connection delivers the reply
`02 03 02 00 09 3C 42` of device 2 as 4 bytes and then 3 bytes, and then the 5 bytes
`01 00 02 C0 F1`. The second iteration reads 5 bytes and takes the branch of
`functionFail = 0`, where `n += n1` adds the 3 that `n1` has kept from the first
iteration: `readResponse` returns 8 bytes with no error, the last three of which
(`3C 42` of the discarded frame and a `00`) were not read in that iteration. -/
theorem readResponse_carries_over_discarded_bytes :
    (readResponse (fun _ => 7)
        ⟨[[2, 3, 2, 0], [9, 60, 66], [1, 0, 2, 192, 241]], ConnError.timeout⟩ []
        [1, 3, 0, 0, 0, 1, 132, 10]).map Exit.outcome
      = some (Outcome.ret (some [1, 0, 2, 192, 241, 60, 66, 0]) none) := by
  decide

/-! ## Short reads -/

theorem validate_error (address : Nat) (old : Option Nat) (n n1 : Nat) (err : ConnError)
    (data : List Nat) (conn : Conn) (tr : List Effect) :
    validate address old n n1 (some err) data conn tr
      = Sum.inl ⟨Outcome.ret (resultSlice old data) (some err), conn, tr⟩ := by
  simp [validate]

theorem getD_one_take_append (P rest : List Nat) (k : Nat) (hk : 2 ≤ k) (hP : 2 ≤ P.length) :
    (List.take k P ++ rest).getD 1 0 = P.getD 1 0 := by
  obtain ⟨k', rfl⟩ : ∃ k', k = k' + 2 := ⟨k - 2, by omega⟩
  match P, hP with
  | p0 :: p1 :: P', _ => simp

/-- An iteration in which the connection runs short ends the call with an error. -/
theorem iteration_short_read (address function functionFail : Nat) (bytesToRead : Int)
    (s : Frame) (hdata : s.data.length = rtuMaxSize)
    (hshort : shortRead function functionFail bytesToRead s.conn.pending) :
    ∃ x resp err, iteration address function functionFail bytesToRead s = some (Sum.inl x)
      ∧ x.outcome = Outcome.ret resp (some err) := by
  have hmin4 : rtuMinSize = 4 := rfl
  have hmax : rtuMaxSize = 256 := rfl
  have hexc5 : rtuExceptionSize = 5 := rfl
  have hbuf : rtuMinSize ≤ s.data.length := by omega
  rcases hshort with h | ⟨h4, hfun, hlt, hle⟩ | ⟨h4, h5, hnf, hff⟩
  · have hRA : ReadAtLeast s.conn s.data rtuMinSize = _ :=
      ReadAtLeast_short s.conn.chunks s.conn.final s.data rtuMinSize hbuf h
    simp only [iteration, hRA]
    exact ⟨_, _, _, rfl, rfl⟩
  · obtain ⟨k, cs', hRA, hfl, hk, hmk, hnk, -⟩ :=
      ReadAtLeast_enough s.conn.chunks s.conn.final s.data rtuMinSize hbuf h4
    have hRA' : ReadAtLeast s.conn s.data rtuMinSize = _ := hRA
    have hP : s.conn.chunks.flatten = s.conn.pending := rfl
    rw [hP] at hRA' hfl hk
    have hget : (List.take k s.conn.pending ++ List.drop k s.data).getD 1 0 = function := by
      rw [getD_one_take_append _ _ _ (by omega) (by omega)]; exact hfun
    have hklt : (k : Int) < bytesToRead := by omega
    have hb : bytesToRead > (rtuMinSize : Int) ∧ bytesToRead ≤ (rtuMaxSize : Int) :=
      ⟨by omega, hle⟩
    have hRF := ReadAtLeast_short cs' s.conn.final
      (List.drop k (List.take bytesToRead.toNat
        (List.take k s.conn.pending ++ List.drop k s.data)))
      (List.drop k (List.take bytesToRead.toNat
        (List.take k s.conn.pending ++ List.drop k s.data))).length (le_refl _)
      (by
        rw [hfl]
        simp only [List.length_drop, List.length_take, List.length_append]
        omega)
    simp only [iteration, hRA', ne_eq, not_true_eq_false, if_false, hget, if_true, hklt, hb,
      and_self, ReadFull, hRF, validate_error]
    exact ⟨_, _, _, rfl, rfl⟩
  · obtain ⟨k, cs', hRA, hfl, hk, hmk, hnk, -⟩ :=
      ReadAtLeast_enough s.conn.chunks s.conn.final s.data rtuMinSize hbuf h4
    have hRA' : ReadAtLeast s.conn s.data rtuMinSize = _ := hRA
    have hP : s.conn.chunks.flatten = s.conn.pending := rfl
    rw [hP] at hRA' hfl hk
    have hget : (List.take k s.conn.pending ++ List.drop k s.data).getD 1 0
        = s.conn.pending.getD 1 0 :=
      getD_one_take_append _ _ _ (by omega) (by omega)
    have hk5 : k < rtuExceptionSize := by omega
    have hne : ¬ functionFail = function := by rw [← hff]; exact hnf
    have hRF := ReadAtLeast_short cs' s.conn.final
      (List.drop k (List.take rtuExceptionSize
        (List.take k s.conn.pending ++ List.drop k s.data)))
      (List.drop k (List.take rtuExceptionSize
        (List.take k s.conn.pending ++ List.drop k s.data))).length (le_refl _)
      (by
        rw [hfl]
        simp only [List.length_drop, List.length_take, List.length_append]
        omega)
    simp only [iteration, hRA', ne_eq, not_true_eq_false, if_false, hget, hff, hne, if_true,
      hk5, ReadFull, hRF, validate_error]
    exact ⟨_, _, _, rfl, rfl⟩

/-- The frames the loop passes through keep the size of the array. -/
theorem frameAt_data_length (address function functionFail : Nat) (bytesToRead : Int) :
    ∀ (j : Nat) (s0 s : Frame), s0.data.length = rtuMaxSize →
      frameAt address function functionFail bytesToRead j s0 = some s →
      s.data.length = rtuMaxSize := by
  intro j
  induction j with
  | zero =>
    intro s0 s h0 h
    simp only [frameAt, Option.some.injEq] at h
    rw [← h]; exact h0
  | succ j ih =>
    intro s0 s h0 h
    obtain ⟨r, hit, hpost⟩ := iteration_spec address function functionFail bytesToRead s0 h0
    simp only [frameAt, hit] at h
    cases r with
    | inl x => simp at h
    | inr s1 => exact ih s1 s hpost.1 h

/-- The loop entered at `s0` ends as the loop entered at a frame it passes through. -/
theorem readLoop_frameAt (address function functionFail : Nat) (bytesToRead : Int) :
    ∀ (j fuel : Nat) (s0 s : Frame) (x : Exit),
      frameAt address function functionFail bytesToRead j s0 = some s →
      readLoop address function functionFail bytesToRead fuel s0 = some x →
      ∃ fuel', readLoop address function functionFail bytesToRead (fuel' + 1) s = some x := by
  intro j
  induction j with
  | zero =>
    intro fuel s0 s x h hx
    simp only [frameAt, Option.some.injEq] at h
    subst h
    cases fuel with
    | zero => simp [readLoop] at hx
    | succ fuel => exact ⟨fuel, hx⟩
  | succ j ih =>
    intro fuel s0 s x h hx
    cases fuel with
    | zero => simp [readLoop] at hx
    | succ fuel =>
      cases hit : iteration address function functionFail bytesToRead s0 with
      | none => simp [frameAt, hit] at h
      | some r =>
        cases r with
        | inl y => simp [frameAt, hit] at h
        | inr s1 =>
          simp only [frameAt, hit] at h
          simp only [readLoop, hit] at hx
          exact ih fuel s1 s x h hx

/-- C7. Any short read is a failure. For every request of at least two bytes, every
oracle and every connection: if in some iteration that `readResponse` reaches (the
first, or a later one after frames for other addresses were discarded) the connection
runs short (it cannot fill the initial read of `rtuMinSize` bytes, or the remainder read
of the normal path up to the oracle's length, or the remainder read of the exception
path up to `rtuExceptionSize`), then `readResponse` returns a non-nil error and accepts
no frame. -/
theorem readResponse_short_read_fails (calculateResponseLength : List Nat → Int)
    (conn : Conn) (trace : List Effect) (address function : Nat) (rest : List Nat)
    (j : Nat) (s : Frame)
    (hreach : frameAt address function (function &&& 0x80)
      (calculateResponseLength (address :: function :: rest)) j (initialFrame conn trace)
        = some s)
    (hshort : shortRead function (function &&& 0x80)
      (calculateResponseLength (address :: function :: rest)) s.conn.pending) :
    ∃ x aduResponse err,
      readResponse calculateResponseLength conn trace (address :: function :: rest) = some x
        ∧ x.outcome = Outcome.ret aduResponse (some err) := by
  obtain ⟨x, hx, -⟩ :=
    readResponse_spec calculateResponseLength conn trace (address :: function :: rest)
  have hx' : readLoop address function (function &&& 0x80)
      (calculateResponseLength (address :: function :: rest)) (conn.pending.length + 1)
      (initialFrame conn trace) = some x := hx
  obtain ⟨fuel', hrun⟩ := readLoop_frameAt _ _ _ _ j _ _ s x hreach hx'
  have hdata := frameAt_data_length _ _ _ _ j _ s (by simp [initialFrame]) hreach
  obtain ⟨y, resp, err, hit, hy⟩ :=
    iteration_short_read address function (function &&& 0x80)
      (calculateResponseLength (address :: function :: rest)) s hdata hshort
  simp only [readLoop, hit, Option.some.injEq] at hrun
  subst hrun
  exact ⟨y, resp, err, hx, hy⟩

/-- Witness of C7: after the reply of another device was discarded, only 5 bytes of the
7-byte reply the oracle predicts arrive before the deadline. -/
theorem readResponse_short_read_fails_witness :
    ∃ x aduResponse err,
      readResponse (fun _ => 7)
          ⟨[[2, 3, 2, 0, 9, 60, 66], [1, 3, 2, 0], [5]], ConnError.timeout⟩ []
          [1, 3, 0, 0, 0, 1, 132, 10] = some x
        ∧ x.outcome = Outcome.ret aduResponse (some err) :=
  readResponse_short_read_fails (fun _ => 7)
    ⟨[[2, 3, 2, 0, 9, 60, 66], [1, 3, 2, 0], [5]], ConnError.timeout⟩ [] 1 3
    [0, 0, 0, 1, 132, 10] 1
    ⟨0, [2, 3, 2, 0, 9, 60, 66] ++ List.replicate 249 0, some 7,
      ⟨[[1, 3, 2, 0], [5]], ConnError.timeout⟩,
      [Effect.readAtLeast 4 7, Effect.logf "modbus: recv % x\n" [2, 3, 2, 0, 9, 60, 66]]⟩
    (by decide) (Or.inr (Or.inl (by decide)))

/-! ## An oracle out of bounds -/

theorem validate_ok (address : Nat) (old : Option Nat) (n n1 : Nat) (data : List Nat)
    (conn : Conn) (tr : List Effect) (F rest : List Nat) (b : Nat) (tail : List Nat)
    (hdata : data = F ++ rest) (hn : F.length = n) (hF : F = b :: tail) :
    validate address old n n1 none data conn tr
      = if b = address then
          Sum.inl ⟨Outcome.ret (some F) none, conn,
            tr ++ [Effect.logf "modbus: recv % x\n" F]⟩
        else
          Sum.inr ⟨n1, data, some n, conn, tr ++ [Effect.logf "modbus: recv % x\n" F]⟩ := by
  subst hn hdata
  rw [hF]
  by_cases hb : b = address <;> simp [validate, hb]

/-- C8. When the oracle's length is out of bounds (greater than `rtuMaxSize`, or not
greater than `rtuMinSize`), an iteration of `readResponse` does not over-read on the
normal-reply path. Whatever the variables of the loop hold when the iteration starts,
if the initial read succeeds and the function byte it finds equals the function code
of the request, then the iteration performs that one read only and no remainder read:
the frame it assembles is exactly the `k` bytes the initial read delivered, the
connection is left as the initial read left it, and on an address match that frame is
returned (otherwise it is discarded and the loop goes round again). -/
theorem iteration_no_over_read (address function functionFail : Nat) (bytesToRead : Int)
    (s : Frame) (hdata : s.data.length = rtuMaxSize)
    (hbounds : bytesToRead > rtuMaxSize ∨ bytesToRead ≤ rtuMinSize)
    (henough : rtuMinSize ≤ s.conn.pending.length)
    (hfun : s.conn.pending.getD 1 0 = function) :
    ∃ k conn',
      ReadAtLeast s.conn s.data rtuMinSize
          = some (k, none, s.conn.pending.take k ++ s.data.drop k, conn')
        ∧ iteration address function functionFail bytesToRead s
          = some (if s.conn.pending.head? = some address then
              Sum.inl ⟨Outcome.ret (some (s.conn.pending.take k)) none, conn',
                s.trace ++ [Effect.readAtLeast rtuMinSize k]
                  ++ [Effect.logf "modbus: recv % x\n" (s.conn.pending.take k)]⟩
            else
              Sum.inr ⟨s.n1, s.conn.pending.take k ++ s.data.drop k, some k, conn',
                s.trace ++ [Effect.readAtLeast rtuMinSize k]
                  ++ [Effect.logf "modbus: recv % x\n" (s.conn.pending.take k)]⟩) := by
  have hmin4 : rtuMinSize = 4 := rfl
  have hmax : rtuMaxSize = 256 := rfl
  obtain ⟨k, cs', hRA, hfl, hk, hmk, hnk, -⟩ :=
    ReadAtLeast_enough s.conn.chunks s.conn.final s.data rtuMinSize (by omega) henough
  have hRA' : ReadAtLeast s.conn s.data rtuMinSize = _ := hRA
  have hP : s.conn.chunks.flatten = s.conn.pending := rfl
  rw [hP] at hRA' hfl hk
  refine ⟨k, ⟨cs', s.conn.final⟩, hRA', ?_⟩
  have hget : (List.take k s.conn.pending ++ List.drop k s.data).getD 1 0 = function := by
    rw [getD_one_take_append _ _ _ (by omega) (by omega)]; exact hfun
  have hnb : ¬ ((k : Int) < bytesToRead
      ∧ (bytesToRead > (rtuMinSize : Int) ∧ bytesToRead ≤ (rtuMaxSize : Int))) := by omega
  obtain ⟨b, tail, hF, hhead⟩ : ∃ b tail, List.take k s.conn.pending = b :: tail
      ∧ s.conn.pending.head? = some b := by
    obtain ⟨k', rfl⟩ : ∃ k', k = k' + 1 := ⟨k - 1, by omega⟩
    match hPd : s.conn.pending with
    | [] => rw [hPd] at henough; simp at henough; omega
    | p0 :: P' => exact ⟨p0, List.take k' P', by simp, by simp⟩
  have hv := validate_ok address s.aduResponse k s.n1
    (List.take k s.conn.pending ++ List.drop k s.data) ⟨cs', s.conn.final⟩
    (s.trace ++ [Effect.readAtLeast rtuMinSize k]) (List.take k s.conn.pending)
    (List.drop k s.data) b tail rfl (by rw [List.length_take]; omega) hF
  have hcond : (s.conn.pending.head? = some address) ↔ (b = address) := by
    rw [hhead]; simp
  simp only [iteration, hRA', ne_eq, not_true_eq_false, if_false, hget, if_true]
  by_cases hlt : (k : Int) < bytesToRead
  · have hb : ¬ (bytesToRead > (rtuMinSize : Int) ∧ bytesToRead ≤ (rtuMaxSize : Int)) :=
      fun h => hnb ⟨hlt, h⟩
    simp only [hlt, if_true, hb, if_false, hv, hcond]
  · simp only [hlt, if_false, hv, hcond]

/-- Witness of C8: the oracle predicts 300 bytes, more than `rtuMaxSize`, and the
connection delivers 5 bytes and then 2 bytes. -/
theorem iteration_no_over_read_witness :
    ∃ k conn',
      ReadAtLeast ⟨[[1, 3, 2, 0, 5], [120, 71]], ConnError.timeout⟩
          (List.replicate rtuMaxSize 0) rtuMinSize
          = some (k, none,
              [1, 3, 2, 0, 5, 120, 71].take k ++ (List.replicate rtuMaxSize 0).drop k, conn')
        ∧ iteration 1 3 0 300
            (initialFrame ⟨[[1, 3, 2, 0, 5], [120, 71]], ConnError.timeout⟩ [])
          = some (if [1, 3, 2, 0, 5, 120, 71].head? = some 1 then
              Sum.inl ⟨Outcome.ret (some ([1, 3, 2, 0, 5, 120, 71].take k)) none, conn',
                [] ++ [Effect.readAtLeast rtuMinSize k]
                  ++ [Effect.logf "modbus: recv % x\n" ([1, 3, 2, 0, 5, 120, 71].take k)]⟩
            else
              Sum.inr ⟨0, [1, 3, 2, 0, 5, 120, 71].take k
                  ++ (List.replicate rtuMaxSize 0).drop k,
                some k, conn',
                [] ++ [Effect.readAtLeast rtuMinSize k]
                  ++ [Effect.logf "modbus: recv % x\n" ([1, 3, 2, 0, 5, 120, 71].take k)]⟩) :=
  iteration_no_over_read 1 3 0 300
    (initialFrame ⟨[[1, 3, 2, 0, 5], [120, 71]], ConnError.timeout⟩ [])
    (by simp [initialFrame]) (Or.inl (by decide)) (by decide) (by decide)

/-! ## The exchange -/

theorem isFramer_not_setDeadline (o : Effect) (h : o.isFramer = true) (t : Int)
    (err : Option ConnError) : o ≠ Effect.setDeadline t err := by
  intro ho
  rw [ho] at h
  simp [Effect.isFramer] at h

theorem connect_Timeout (mb : rtuTCPTransporter) (w : World) :
    (connect mb w).1.Timeout = mb.Timeout := by
  unfold connect
  split
  · rfl
  · split <;> rfl

/-- C9. Deadline policy of `Send`. In every exchange that gets as far as the write
(`connect` and the setting of the deadline succeed), `Send` ends, the last-activity time
it records is the second reading of the clock, and the operations it performs are, in
order: lock, connect, the short deadline and the read of the drain, the re-arming of the
idle timer, then `SetDeadline` with last activity plus `Timeout` when `Timeout > 0` and
with the zero time otherwise, the log line, the write of the request, the operations of
the framing loop, and the unlock. The deadline of the exchange is thus set once, before
the write, and none of the operations of the framing loop that follow sets a deadline. -/
theorem Send_deadline_policy (calculateResponseLength : List Nat → Int)
    (mb : rtuTCPTransporter) (w : World) (aduRequest : List Nat)
    (hconn : (connect mb w).2 = none) (hset : w.setDeadline = none) :
    ∃ x reads, Send calculateResponseLength mb w aduRequest = some x
      ∧ x.mb.lastActivity = w.now2
      ∧ x.trace = [Effect.lock, Effect.connect none,
            Effect.setDeadline (w.now1 + drainTimeout) w.drainDeadline, Effect.readAll,
            Effect.startCloseTimer,
            Effect.setDeadline (if mb.Timeout > 0 then w.now2 + mb.Timeout else zeroTime) none,
            Effect.logf "modbus: send % x\n" aduRequest,
            Effect.write aduRequest w.write]
          ++ reads ++ [Effect.unlock]
      ∧ ∀ o ∈ reads, ∀ t err, o ≠ Effect.setDeadline t err := by
  have hT := connect_Timeout mb w
  obtain ⟨mb', hc⟩ : ∃ mb', connect mb w = (mb', none) :=
    ⟨(connect mb w).1, by rw [← hconn]⟩
  rw [hc] at hT
  simp only at hT
  by_cases hw : w.write = none
  · obtain ⟨x', hx', ⟨ops, htr, hops⟩, -⟩ :=
      readResponse_spec calculateResponseLength w.reply
        ([Effect.lock] ++ [Effect.connect none]
          ++ [Effect.setDeadline (w.now1 + drainTimeout) w.drainDeadline, Effect.readAll]
          ++ [Effect.startCloseTimer]
          ++ [Effect.setDeadline (exchangeDeadline
              (startCloseTimer { mb' with lastActivity := w.now2 })) none]
          ++ [Effect.logf "modbus: send % x\n" aduRequest]
          ++ [Effect.write aduRequest none]) aduRequest
    refine ⟨⟨x'.outcome, startCloseTimer { mb' with lastActivity := w.now2 },
      x'.trace ++ [Effect.unlock]⟩, ops, ?_, rfl, ?_,
      fun o ho t err => isFramer_not_setDeadline o (hops o ho) t err⟩
    · simp only [Send, hc, hset, hw, ne_eq, not_true_eq_false, if_false, hx']
    · simp only [htr, hw, exchangeDeadline, startCloseTimer, hT, List.append_assoc,
        List.cons_append, List.nil_append]
  · refine ⟨⟨Outcome.ret none w.write, startCloseTimer { mb' with lastActivity := w.now2 },
      [Effect.lock, Effect.connect none,
        Effect.setDeadline (w.now1 + drainTimeout) w.drainDeadline, Effect.readAll,
        Effect.startCloseTimer,
        Effect.setDeadline (exchangeDeadline
          (startCloseTimer { mb' with lastActivity := w.now2 })) none,
        Effect.logf "modbus: send % x\n" aduRequest,
        Effect.write aduRequest w.write, Effect.unlock]⟩, [], ?_, rfl, ?_, by simp⟩
    · simp only [Send, hc, hset, hw, ne_eq, not_true_eq_false, not_false_eq_true, if_false,
        if_true, List.append_assoc, List.cons_append, List.nil_append]
    · simp only [exchangeDeadline, startCloseTimer, hT, List.append_assoc,
        List.cons_append, List.nil_append]

/-- Witness of C9: a disconnected transporter with a timeout of 10 s, the clock read at
1000 ns and 2000 ns, and a reply that arrives as 4 bytes and then 3 bytes. -/
theorem Send_deadline_policy_witness :
    ∃ x reads,
      Send (fun _ => 7) ⟨"10.0.0.7:502", 10000000000, 60000000000, false, 0, none⟩
          ⟨none, 1000, none, ⟨[], ConnError.timeout⟩, 2000, none, none,
            ⟨[[1, 3, 2, 0], [5, 120, 71]], ConnError.timeout⟩⟩
          [1, 3, 0, 0, 0, 1, 132, 10] = some x
      ∧ x.mb.lastActivity = 2000
      ∧ x.trace = [Effect.lock, Effect.connect none,
            Effect.setDeadline (1000 + drainTimeout) none, Effect.readAll,
            Effect.startCloseTimer,
            Effect.setDeadline
              (if (10000000000 : Int) > 0 then 2000 + 10000000000 else zeroTime) none,
            Effect.logf "modbus: send % x\n" [1, 3, 0, 0, 0, 1, 132, 10],
            Effect.write [1, 3, 0, 0, 0, 1, 132, 10] none]
          ++ reads ++ [Effect.unlock]
      ∧ ∀ o ∈ reads, ∀ t err, o ≠ Effect.setDeadline t err :=
  Send_deadline_policy (fun _ => 7)
    ⟨"10.0.0.7:502", 10000000000, 60000000000, false, 0, none⟩
    ⟨none, 1000, none, ⟨[], ConnError.timeout⟩, 2000, none, none,
      ⟨[[1, 3, 2, 0], [5, 120, 71]], ConnError.timeout⟩⟩
    [1, 3, 0, 0, 0, 1, 132, 10] (by rfl) (by rfl)

/-- C10. Failure to connect, to set the deadline of the exchange or to write aborts the
exchange. For every request: if `connect` returns an error, `Send` returns that error
with a `nil` response having performed only lock, connect and unlock; if `connect`
succeeds and the setting of the deadline of the exchange returns an error, `Send`
returns that error with a `nil` response and has neither written the request nor read
from the connection after the drain; if both succeed and the write returns an error,
`Send` returns that error with a `nil` response and has read no response. -/
theorem Send_aborts_on_failure (calculateResponseLength : List Nat → Int)
    (mb : rtuTCPTransporter) (w : World) (aduRequest : List Nat) :
    (∀ e, (connect mb w).2 = some e →
      ∃ x, Send calculateResponseLength mb w aduRequest = some x
        ∧ x.outcome = Outcome.ret none (some e)
        ∧ x.trace = [Effect.lock, Effect.connect (some e), Effect.unlock])
    ∧ (∀ e, (connect mb w).2 = none → w.setDeadline = some e →
      ∃ x, Send calculateResponseLength mb w aduRequest = some x
        ∧ x.outcome = Outcome.ret none (some e)
        ∧ x.trace = [Effect.lock, Effect.connect none,
            Effect.setDeadline (w.now1 + drainTimeout) w.drainDeadline, Effect.readAll,
            Effect.startCloseTimer,
            Effect.setDeadline (if mb.Timeout > 0 then w.now2 + mb.Timeout else zeroTime)
              (some e),
            Effect.unlock])
    ∧ (∀ e, (connect mb w).2 = none → w.setDeadline = none → w.write = some e →
      ∃ x, Send calculateResponseLength mb w aduRequest = some x
        ∧ x.outcome = Outcome.ret none (some e)
        ∧ x.trace = [Effect.lock, Effect.connect none,
            Effect.setDeadline (w.now1 + drainTimeout) w.drainDeadline, Effect.readAll,
            Effect.startCloseTimer,
            Effect.setDeadline (if mb.Timeout > 0 then w.now2 + mb.Timeout else zeroTime) none,
            Effect.logf "modbus: send % x\n" aduRequest,
            Effect.write aduRequest (some e), Effect.unlock]) := by
  have hT := connect_Timeout mb w
  refine ⟨?_, ?_, ?_⟩
  · intro e hconn
    obtain ⟨mb', hc⟩ : ∃ mb', connect mb w = (mb', some e) :=
      ⟨(connect mb w).1, by rw [← hconn]⟩
    refine ⟨⟨Outcome.ret none (some e), mb',
      [Effect.lock, Effect.connect (some e), Effect.unlock]⟩, ?_, rfl, rfl⟩
    simp only [Send, hc, ne_eq, not_false_eq_true, if_true, List.append_assoc,
      List.cons_append, List.nil_append, reduceCtorEq]
  · intro e hconn hset
    obtain ⟨mb', hc⟩ : ∃ mb', connect mb w = (mb', none) :=
      ⟨(connect mb w).1, by rw [← hconn]⟩
    rw [hc] at hT
    simp only at hT
    refine ⟨⟨Outcome.ret none (some e), startCloseTimer { mb' with lastActivity := w.now2 },
      _⟩, ?_, rfl, rfl⟩
    simp only [Send, hc, hset, ne_eq, not_true_eq_false, not_false_eq_true, if_false,
      if_true, List.append_assoc, List.cons_append, List.nil_append, reduceCtorEq,
      exchangeDeadline, startCloseTimer, hT]
  · intro e hconn hset hw
    obtain ⟨mb', hc⟩ : ∃ mb', connect mb w = (mb', none) :=
      ⟨(connect mb w).1, by rw [← hconn]⟩
    rw [hc] at hT
    simp only at hT
    refine ⟨⟨Outcome.ret none (some e), startCloseTimer { mb' with lastActivity := w.now2 },
      _⟩, ?_, rfl, rfl⟩
    simp only [Send, hc, hset, hw, ne_eq, not_true_eq_false, not_false_eq_true, if_false,
      if_true, List.append_assoc, List.cons_append, List.nil_append, reduceCtorEq,
      exchangeDeadline, startCloseTimer, hT]

/-- Witness of C10: a disconnected transporter whose dial is refused; one whose
connection is closed under it when the deadline is set; one whose write fails. -/
theorem Send_aborts_on_failure_witness :
    (∃ x, Send (fun _ => 7) ⟨"10.0.0.7:502", 10000000000, 60000000000, false, 0, none⟩
          ⟨some ConnError.refused, 1000, none, ⟨[], ConnError.timeout⟩, 2000, none, none,
            ⟨[], ConnError.timeout⟩⟩
          [1, 3, 0, 0, 0, 1, 132, 10] = some x
        ∧ x.outcome = Outcome.ret none (some ConnError.refused)
        ∧ x.trace = [Effect.lock, Effect.connect (some ConnError.refused), Effect.unlock])
    ∧ (∃ x, Send (fun _ => 7) ⟨"10.0.0.7:502", 10000000000, 60000000000, true, 0, none⟩
          ⟨none, 1000, none, ⟨[], ConnError.timeout⟩, 2000, some ConnError.closed, none,
            ⟨[], ConnError.timeout⟩⟩
          [1, 3, 0, 0, 0, 1, 132, 10] = some x
        ∧ x.outcome = Outcome.ret none (some ConnError.closed)
        ∧ x.trace = [Effect.lock, Effect.connect none,
            Effect.setDeadline (1000 + drainTimeout) none, Effect.readAll,
            Effect.startCloseTimer,
            Effect.setDeadline
              (if (10000000000 : Int) > 0 then 2000 + 10000000000 else zeroTime)
              (some ConnError.closed),
            Effect.unlock])
    ∧ (∃ x, Send (fun _ => 7) ⟨"10.0.0.7:502", 10000000000, 60000000000, true, 0, none⟩
          ⟨none, 1000, none, ⟨[], ConnError.timeout⟩, 2000, none, some ConnError.closed,
            ⟨[[1, 3, 2, 0, 5, 120, 71]], ConnError.timeout⟩⟩
          [1, 3, 0, 0, 0, 1, 132, 10] = some x
        ∧ x.outcome = Outcome.ret none (some ConnError.closed)
        ∧ x.trace = [Effect.lock, Effect.connect none,
            Effect.setDeadline (1000 + drainTimeout) none, Effect.readAll,
            Effect.startCloseTimer,
            Effect.setDeadline
              (if (10000000000 : Int) > 0 then 2000 + 10000000000 else zeroTime) none,
            Effect.logf "modbus: send % x\n" [1, 3, 0, 0, 0, 1, 132, 10],
            Effect.write [1, 3, 0, 0, 0, 1, 132, 10] (some ConnError.closed),
            Effect.unlock]) :=
  ⟨(Send_aborts_on_failure (fun _ => 7)
      ⟨"10.0.0.7:502", 10000000000, 60000000000, false, 0, none⟩
      ⟨some ConnError.refused, 1000, none, ⟨[], ConnError.timeout⟩, 2000, none, none,
        ⟨[], ConnError.timeout⟩⟩
      [1, 3, 0, 0, 0, 1, 132, 10]).1 ConnError.refused (by rfl),
    (Send_aborts_on_failure (fun _ => 7)
      ⟨"10.0.0.7:502", 10000000000, 60000000000, true, 0, none⟩
      ⟨none, 1000, none, ⟨[], ConnError.timeout⟩, 2000, some ConnError.closed, none,
        ⟨[], ConnError.timeout⟩⟩
      [1, 3, 0, 0, 0, 1, 132, 10]).2.1 ConnError.closed (by rfl) (by rfl),
    (Send_aborts_on_failure (fun _ => 7)
      ⟨"10.0.0.7:502", 10000000000, 60000000000, true, 0, none⟩
      ⟨none, 1000, none, ⟨[], ConnError.timeout⟩, 2000, none, some ConnError.closed,
        ⟨[[1, 3, 2, 0, 5, 120, 71]], ConnError.timeout⟩⟩
      [1, 3, 0, 0, 0, 1, 132, 10]).2.2 ConnError.closed (by rfl) (by rfl) (by rfl)⟩

/-! ## The remainder-read condition and the constructor -/

/-- C17. The remainder-read condition of the code agrees with the inclusive bounds of
the specification: once the initial read has returned `n ≥ rtuMinSize` bytes, the
condition `readResponse` uses (`n < L` and `rtuMinSize < L ≤ rtuMaxSize`) holds exactly
when the specified one (`n < L` and `rtuMinSize ≤ L ≤ rtuMaxSize`) does. -/
theorem remainderReadCondition_iff_spec (n : Nat) (L : Int) (hn : rtuMinSize ≤ n) :
    remainderReadCondition n L ↔ specRemainderReadCondition n L := by
  unfold remainderReadCondition specRemainderReadCondition
  constructor
  · rintro ⟨h1, h2, h3⟩
    exact ⟨h1, by omega, h3⟩
  · rintro ⟨h1, h2, h3⟩
    exact ⟨h1, by omega, h3⟩

/-- Witness of C17: an initial read of 4 bytes and an expected length of 7. -/
theorem remainderReadCondition_iff_spec_witness :
    remainderReadCondition 4 7 ↔ specRemainderReadCondition 4 7 :=
  remainderReadCondition_iff_spec 4 7 (by decide)

/-- C14. For every address string, `NewRTUOverTCPClientHandler` returns a handler whose
`Address` is that string, whose `Timeout` is `tcpTimeout` and whose `IdleTimeout` is
`tcpIdleTimeout`, and which is disconnected: no connection is set, no idle timer is
armed and no activity is recorded. -/
theorem NewRTUOverTCPClientHandler_fields {Packager : Type} (zeroPackager : Packager)
    (tcpTimeout tcpIdleTimeout : Int) (address : String) :
    (NewRTUOverTCPClientHandler zeroPackager tcpTimeout tcpIdleTimeout address).transporter
      = ⟨address, tcpTimeout, tcpIdleTimeout, false, zeroTime, none⟩ := by
  rfl

/-! ## The bound on the iterations and the slice of the result -/

/-- C19, the code at the failing input: the request reads 125 holding registers from
device 1 (the oracle predicts 255 bytes). The connection delivers a 255-byte reply of
device 2 as 4 bytes and then 251 bytes, and then the 6 bytes `01 00 00 00 00 00`. The
first iteration leaves `n1 = 251`; the second reads 6 bytes, takes the branch of
`functionFail = 0` and adds the 251 that `n1` has kept, so `n = 257` and the slice
`data[:n]` of the 256-byte array is out of range: `readResponse` panics. -/
theorem readResponse_slice_out_of_range :
    (readResponse (fun _ => 255)
        ⟨[[2, 3, 250, 0], List.replicate 251 0, [1, 0, 0, 0, 0, 0]], ConnError.timeout⟩ []
        [1, 3, 0, 0, 0, 125, 133, 235]).map Exit.outcome
      = some Outcome.panic := by
  decide

/-- The loop ends within one iteration per `rtuMinSize` pending bytes and one more:
every iteration that does not end the call takes at least `rtuMinSize` bytes off the
connection. -/
theorem readLoop_ends_within_bound (address function functionFail : Nat)
    (bytesToRead : Int) :
    ∀ (fuel : Nat) (s : Frame), s.data.length = rtuMaxSize →
      s.conn.pending.length < rtuMinSize * fuel →
      ∃ x, readLoop address function functionFail bytesToRead fuel s = some x := by
  intro fuel
  induction fuel with
  | zero => intro s _ h; exact absurd h (by omega)
  | succ fuel ih =>
    intro s hdata hfuel
    obtain ⟨r, hit, hpost⟩ := iteration_spec address function functionFail bytesToRead s hdata
    cases r with
    | inl x => exact ⟨x, by simp only [readLoop, hit]⟩
    | inr s' =>
      obtain ⟨hd', hp', -, -⟩ := hpost
      obtain ⟨x, hx⟩ := ih s' hd' (by rw [Nat.mul_succ] at hfuel; omega)
      exact ⟨x, by simp only [readLoop, hit, hx]⟩

/-- For a connection that delivers `N` bytes and then fails, `N / rtuMinSize + 1`
iterations of the loop of `readResponse` suffice. -/
theorem readLoop_iterations (address function functionFail : Nat) (bytesToRead : Int)
    (conn : Conn) (trace : List Effect) :
    ∃ x, readLoop address function functionFail bytesToRead
      (conn.pending.length / rtuMinSize + 1) (initialFrame conn trace) = some x := by
  apply readLoop_ends_within_bound
  · simp [initialFrame]
  · have h := Nat.lt_div_mul_add (a := conn.pending.length) (b := rtuMinSize) (by decide)
    simp only [initialFrame]
    rw [Nat.mul_succ, Nat.mul_comm]
    exact h

/-- C15, the code at the failing input: the request reads one holding register from
device 1 (the oracle predicts 7 bytes). The connection delivers the 7-byte reply of
device 2 as 4 bytes and then 3 bytes, and then 254 bytes of which the first is `01`
and the second `00`, in one read. The call ends in its second iteration, within the
bound on the iterations, but neither with a frame nor with an error: the second
iteration adds the 3 that `n1` has kept to the 254 it read and panics on the slice
`data[:257]`. -/
theorem readResponse_ends_in_panic :
    (readResponse (fun _ => 7)
        ⟨[[2, 3, 2, 0], [9, 60, 66], 1 :: List.replicate 253 0], ConnError.timeout⟩ []
        [1, 3, 0, 0, 0, 1, 132, 10]).map Exit.outcome
      = some Outcome.panic := by
  decide

/-! ## The order of the operations of an exchange -/

/-- After a successful `connect` the connection is set. -/
theorem connect_connected (mb : rtuTCPTransporter) (w : World)
    (h : (connect mb w).2 = none) : (connect mb w).1.connected = true := by
  unfold connect at h ⊢
  by_cases hc : mb.connected = true
  · simp only [hc, if_true]
  · simp only [hc, Bool.false_eq_true, if_false] at h ⊢
    cases hd : w.dial with
    | none => rfl
    | some e => rw [hd] at h; simp at h

/-- The four ways a call of `Send` goes: `connect` fails; the deadline of the exchange
cannot be set; the write fails; or the request is written and `readResponse` is called,
whose outcome is the outcome of `Send`. -/
theorem Send_shape (calculateResponseLength : List Nat → Int) (mb : rtuTCPTransporter)
    (w : World) (aduRequest : List Nat) :
    ∃ x, Send calculateResponseLength mb w aduRequest = some x
      ∧ ((∃ e, (connect mb w).2 = some e ∧ x.mb = (connect mb w).1
            ∧ x.outcome = Outcome.ret none (some e)
            ∧ x.trace = [Effect.lock, Effect.connect (some e), Effect.unlock])
        ∨ ((connect mb w).2 = none
            ∧ x.mb = startCloseTimer { (connect mb w).1 with lastActivity := w.now2 }
            ∧ ((∃ e, w.setDeadline = some e ∧ x.outcome = Outcome.ret none (some e)
                  ∧ x.trace = [Effect.lock, Effect.connect none,
                      Effect.setDeadline (w.now1 + drainTimeout) w.drainDeadline,
                      Effect.readAll, Effect.startCloseTimer,
                      Effect.setDeadline
                        (if mb.Timeout > 0 then w.now2 + mb.Timeout else zeroTime) (some e),
                      Effect.unlock])
              ∨ (∃ e, w.setDeadline = none ∧ w.write = some e
                  ∧ x.outcome = Outcome.ret none (some e)
                  ∧ x.trace = [Effect.lock, Effect.connect none,
                      Effect.setDeadline (w.now1 + drainTimeout) w.drainDeadline,
                      Effect.readAll, Effect.startCloseTimer,
                      Effect.setDeadline
                        (if mb.Timeout > 0 then w.now2 + mb.Timeout else zeroTime) none,
                      Effect.logf "modbus: send % x\n" aduRequest,
                      Effect.write aduRequest (some e), Effect.unlock])
              ∨ (∃ r tr reads, w.setDeadline = none ∧ w.write = none
                  ∧ readResponse calculateResponseLength w.reply tr aduRequest = some r
                  ∧ x.outcome = r.outcome
                  ∧ x.trace = [Effect.lock, Effect.connect none,
                      Effect.setDeadline (w.now1 + drainTimeout) w.drainDeadline,
                      Effect.readAll, Effect.startCloseTimer,
                      Effect.setDeadline
                        (if mb.Timeout > 0 then w.now2 + mb.Timeout else zeroTime) none,
                      Effect.logf "modbus: send % x\n" aduRequest,
                      Effect.write aduRequest none] ++ reads ++ [Effect.unlock]
                  ∧ ∀ o ∈ reads, o.isFramer = true)))) := by
  have hT := connect_Timeout mb w
  cases hc2 : (connect mb w).2 with
  | some e =>
    obtain ⟨mb', hc⟩ : ∃ mb', connect mb w = (mb', some e) :=
      ⟨(connect mb w).1, by rw [← hc2]⟩
    refine ⟨⟨Outcome.ret none (some e), mb',
      [Effect.lock, Effect.connect (some e), Effect.unlock]⟩, ?_,
      Or.inl ⟨e, rfl, by rw [hc], rfl, rfl⟩⟩
    simp only [Send, hc, ne_eq, not_false_eq_true, if_true, List.append_assoc,
      List.cons_append, List.nil_append, reduceCtorEq]
  | none =>
    obtain ⟨mb', hc⟩ : ∃ mb', connect mb w = (mb', none) :=
      ⟨(connect mb w).1, by rw [← hc2]⟩
    rw [hc] at hT
    simp only at hT
    cases hset : w.setDeadline with
    | some e =>
      refine ⟨⟨Outcome.ret none (some e),
        startCloseTimer { mb' with lastActivity := w.now2 }, _⟩, ?_,
        Or.inr ⟨rfl, by rw [hc], Or.inl ⟨e, rfl, rfl, rfl⟩⟩⟩
      simp only [Send, hc, hset, ne_eq, not_true_eq_false, not_false_eq_true, if_false,
        if_true, List.append_assoc, List.cons_append, List.nil_append, reduceCtorEq,
        exchangeDeadline, startCloseTimer, hT]
    | none =>
      cases hw : w.write with
      | some e =>
        refine ⟨⟨Outcome.ret none (some e),
          startCloseTimer { mb' with lastActivity := w.now2 }, _⟩, ?_,
          Or.inr ⟨rfl, by rw [hc], Or.inr (Or.inl ⟨e, rfl, rfl, rfl, rfl⟩)⟩⟩
        simp only [Send, hc, hset, hw, ne_eq, not_true_eq_false, not_false_eq_true,
          if_false, if_true, List.append_assoc, List.cons_append, List.nil_append,
          reduceCtorEq, exchangeDeadline, startCloseTimer, hT]
      | none =>
        obtain ⟨r, hr, ⟨ops, htr, hops⟩, -⟩ :=
          readResponse_spec calculateResponseLength w.reply
            ([Effect.lock] ++ [Effect.connect none]
              ++ [Effect.setDeadline (w.now1 + drainTimeout) w.drainDeadline,
                Effect.readAll]
              ++ [Effect.startCloseTimer]
              ++ [Effect.setDeadline (exchangeDeadline
                  (startCloseTimer { mb' with lastActivity := w.now2 })) none]
              ++ [Effect.logf "modbus: send % x\n" aduRequest]
              ++ [Effect.write aduRequest none]) aduRequest
        refine ⟨⟨r.outcome, startCloseTimer { mb' with lastActivity := w.now2 },
          r.trace ++ [Effect.unlock]⟩, ?_,
          Or.inr ⟨rfl, by rw [hc], Or.inr (Or.inr ⟨r, _, ops, rfl, rfl, hr, rfl, ?_, hops⟩)⟩⟩
        · simp only [Send, hc, hset, hw, ne_eq, not_true_eq_false, if_false, hr]
        · simp only [htr, exchangeDeadline, startCloseTimer, hT, List.append_assoc,
            List.cons_append, List.nil_append]

/-- In a list that starts with `A`, an element that is not in `A` has all of `A` before
it. -/
theorem mem_before_of_not_mem (A B pre post : List Effect) (o a : Effect)
    (h : pre ++ o :: post = A ++ B) (ho : o ∉ A) (ha : a ∈ A) : a ∈ pre := by
  rcases List.append_eq_append_iff.1 h with ⟨a', hA, h2⟩ | ⟨c', hpre, -⟩
  · cases a' with
    | nil => rw [List.append_nil] at hA; rw [← hA]; exact ha
    | cons b a'' =>
      rw [List.cons_append] at h2
      injection h2 with h3 _
      exact absurd (by rw [hA, h3]; simp) ho
  · rw [hpre]; exact List.mem_append_left _ ha

/-- C13. The lock is held for the whole of every exchange. Every call of `Send` ends,
on every return path (and when `readResponse` panics, by the deferred `Unlock`), with a
sequence of operations that starts with the lock and ends with the unlock and has
neither a lock nor an unlock in between: the lock is taken before the first operation
on the connection and released exactly once, after the last. -/
theorem Send_holds_lock (calculateResponseLength : List Nat → Int) (mb : rtuTCPTransporter)
    (w : World) (aduRequest : List Nat) :
    ∃ x middle, Send calculateResponseLength mb w aduRequest = some x
      ∧ x.trace = Effect.lock :: middle ++ [Effect.unlock]
      ∧ ∀ o ∈ middle, o ≠ Effect.lock ∧ o ≠ Effect.unlock := by
  obtain ⟨x, hx, hshape⟩ := Send_shape calculateResponseLength mb w aduRequest
  rcases hshape with ⟨e, -, -, -, htr⟩ | ⟨-, -, ⟨e, -, -, htr⟩ | ⟨e, -, -, -, htr⟩
    | ⟨r, tr, reads, -, -, -, -, htr, hreads⟩⟩
  · exact ⟨x, [Effect.connect (some e)], hx, by rw [htr]; rfl, by simp⟩
  · exact ⟨x, [Effect.connect none,
      Effect.setDeadline (w.now1 + drainTimeout) w.drainDeadline,
      Effect.readAll, Effect.startCloseTimer,
      Effect.setDeadline (if mb.Timeout > 0 then w.now2 + mb.Timeout else zeroTime)
        (some e)], hx, by rw [htr]; rfl, by simp⟩
  · exact ⟨x, [Effect.connect none,
      Effect.setDeadline (w.now1 + drainTimeout) w.drainDeadline,
      Effect.readAll, Effect.startCloseTimer,
      Effect.setDeadline (if mb.Timeout > 0 then w.now2 + mb.Timeout else zeroTime) none,
      Effect.logf "modbus: send % x\n" aduRequest,
      Effect.write aduRequest (some e)], hx, by rw [htr]; rfl, by simp⟩
  · refine ⟨x, [Effect.connect none,
      Effect.setDeadline (w.now1 + drainTimeout) w.drainDeadline,
      Effect.readAll, Effect.startCloseTimer,
      Effect.setDeadline (if mb.Timeout > 0 then w.now2 + mb.Timeout else zeroTime) none,
      Effect.logf "modbus: send % x\n" aduRequest,
      Effect.write aduRequest none] ++ reads, hx, by rw [htr]; simp, ?_⟩
    intro o ho
    simp only [List.mem_append, List.mem_cons, List.mem_singleton, List.not_mem_nil,
      or_false] at ho
    rcases ho with h7 | h
    · rcases h7 with rfl | rfl | rfl | rfl | rfl | rfl | rfl <;> exact ⟨by simp, by simp⟩
    · have := hreads _ h
      constructor <;> (intro ho'; rw [ho'] at this; simp [Effect.isFramer] at this)

/-! ## The record of operations does not influence the run -/

theorem validate_eraseTrace (address : Nat) (old : Option Nat) (n n1 : Nat)
    (err : Option ConnError) (data : List Nat) (conn : Conn) (t1 t2 : List Effect) :
    eraseStep (validate address old n n1 err data conn t1)
      = eraseStep (validate address old n n1 err data conn t2) := by
  unfold validate
  by_cases herr : err = none
  · subst herr
    by_cases hlen : data.length < n
    · simp [hlen, eraseStep, Exit.eraseTrace]
    · simp only [ne_eq, not_true_eq_false, if_false, hlen]
      cases (List.take n data).head? with
      | none => simp [eraseStep, Exit.eraseTrace]
      | some b =>
        by_cases hb : b = address
        · simp [hb, eraseStep, Exit.eraseTrace]
        · simp [hb, eraseStep, Frame.eraseTrace]
  · simp [herr, eraseStep, Exit.eraseTrace]

theorem iteration_eraseTrace (address function functionFail : Nat) (bytesToRead : Int)
    (s1 s2 : Frame) (h : s1.eraseTrace = s2.eraseTrace) :
    (iteration address function functionFail bytesToRead s1).map eraseStep
      = (iteration address function functionFail bytesToRead s2).map eraseStep := by
  obtain ⟨n1, data, adu, conn, t1⟩ := s1
  obtain ⟨n1', data', adu', conn', t2⟩ := s2
  simp only [Frame.eraseTrace, Frame.mk.injEq, and_true] at h
  obtain ⟨rfl, rfl, rfl, rfl⟩ := h
  simp only [iteration]
  cases ReadAtLeast conn data rtuMinSize with
  | none => rfl
  | some res =>
    obtain ⟨n, err, d, c⟩ := res
    simp only
    by_cases herr : err = none
    · subst herr
      simp only [ne_eq, not_true_eq_false, if_false]
      split_ifs
      · cases ReadFull c (List.drop n (List.take bytesToRead.toNat d)) with
        | none => rfl
        | some res2 =>
          obtain ⟨m, err2, b2, c2⟩ := res2
          simp only [Option.map_some']
          rw [validate_eraseTrace]
      · simp only [Option.map_some']; rw [validate_eraseTrace]
      · simp only [Option.map_some']; rw [validate_eraseTrace]
      · cases ReadFull c (List.drop n (List.take rtuExceptionSize d)) with
        | none => rfl
        | some res2 =>
          obtain ⟨m, err2, b2, c2⟩ := res2
          simp only [Option.map_some']
          rw [validate_eraseTrace]
      · simp only [Option.map_some']; rw [validate_eraseTrace]
      · simp only [Option.map_some']; rw [validate_eraseTrace]
    · simp [herr, eraseStep, Exit.eraseTrace]

theorem readLoop_eraseTrace (address function functionFail : Nat) (bytesToRead : Int) :
    ∀ (fuel : Nat) (s1 s2 : Frame), s1.eraseTrace = s2.eraseTrace →
      (readLoop address function functionFail bytesToRead fuel s1).map Exit.eraseTrace
        = (readLoop address function functionFail bytesToRead fuel s2).map
            Exit.eraseTrace := by
  intro fuel
  induction fuel with
  | zero => intro s1 s2 _; rfl
  | succ fuel ih =>
    intro s1 s2 h
    have hit := iteration_eraseTrace address function functionFail bytesToRead s1 s2 h
    simp only [readLoop]
    cases h1 : iteration address function functionFail bytesToRead s1 with
    | none =>
      rw [h1] at hit
      cases h2 : iteration address function functionFail bytesToRead s2 with
      | none => rfl
      | some r2 => rw [h2] at hit; simp at hit
    | some r1 =>
      rw [h1] at hit
      cases h2 : iteration address function functionFail bytesToRead s2 with
      | none => rw [h2] at hit; simp at hit
      | some r2 =>
        rw [h2] at hit
        simp only [Option.map_some', Option.some.injEq] at hit
        cases r1 with
        | inl x1 =>
          cases r2 with
          | inl x2 =>
            simp only [eraseStep, Sum.inl.injEq] at hit
            simp only [Option.map_some', hit]
          | inr s2' => simp [eraseStep] at hit
        | inr s1' =>
          cases r2 with
          | inl x2 => simp [eraseStep] at hit
          | inr s2' =>
            simp only [eraseStep, Sum.inr.injEq] at hit
            exact ih s1' s2' hit

/-- The outcome of `readResponse` and the connection it leaves do not depend on the
operations recorded before the call. -/
theorem readResponse_eraseTrace (calculateResponseLength : List Nat → Int) (conn : Conn)
    (t1 t2 : List Effect) (aduRequest : List Nat) :
    (readResponse calculateResponseLength conn t1 aduRequest).map Exit.eraseTrace
      = (readResponse calculateResponseLength conn t2 aduRequest).map Exit.eraseTrace := by
  match aduRequest with
  | [] => rfl
  | [_] => rfl
  | address :: function :: rest =>
    simp only [readResponse]
    exact readLoop_eraseTrace _ _ _ _ _ _ _ rfl

theorem readResponse_outcome_trace (calculateResponseLength : List Nat → Int) (conn : Conn)
    (t1 t2 : List Effect) (aduRequest : List Nat) :
    (readResponse calculateResponseLength conn t1 aduRequest).map Exit.outcome
      = (readResponse calculateResponseLength conn t2 aduRequest).map Exit.outcome := by
  have h := congrArg (Option.map Exit.outcome)
    (readResponse_eraseTrace calculateResponseLength conn t1 t2 aduRequest)
  simpa only [Option.map_map, Function.comp_def, Exit.eraseTrace] using h

/-- What `Send` returns and the transporter it leaves, as a function of what the
surroundings answer: of the outcome of the drain nothing enters. -/
theorem Send_result (calculateResponseLength : List Nat → Int) (mb : rtuTCPTransporter)
    (w : World) (aduRequest : List Nat) :
    (Send calculateResponseLength mb w aduRequest).map (fun x => (x.outcome, x.mb))
      = match (connect mb w).2 with
        | some e => some (Outcome.ret none (some e), (connect mb w).1)
        | none =>
          match w.setDeadline with
          | some e => some (Outcome.ret none (some e),
              startCloseTimer { (connect mb w).1 with lastActivity := w.now2 })
          | none =>
            match w.write with
            | some e => some (Outcome.ret none (some e),
                startCloseTimer { (connect mb w).1 with lastActivity := w.now2 })
            | none =>
              (readResponse calculateResponseLength w.reply [] aduRequest).map
                (fun r => (r.outcome,
                  startCloseTimer { (connect mb w).1 with lastActivity := w.now2 })) := by
  cases hc2 : (connect mb w).2 with
  | some e =>
    obtain ⟨mb', hc⟩ : ∃ mb', connect mb w = (mb', some e) :=
      ⟨(connect mb w).1, by rw [← hc2]⟩
    simp only [Send, hc, ne_eq, not_false_eq_true, if_true, reduceCtorEq, Option.map_some']
  | none =>
    obtain ⟨mb', hc⟩ : ∃ mb', connect mb w = (mb', none) :=
      ⟨(connect mb w).1, by rw [← hc2]⟩
    cases hset : w.setDeadline with
    | some e =>
      simp only [Send, hc, hset, ne_eq, not_true_eq_false, not_false_eq_true, if_false,
        if_true, reduceCtorEq, Option.map_some']
    | none =>
      cases hw : w.write with
      | some e =>
        simp only [Send, hc, hset, hw, ne_eq, not_true_eq_false, not_false_eq_true,
          if_false, if_true, reduceCtorEq, Option.map_some']
      | none =>
        simp only [Send, hc, hset, hw, ne_eq, not_true_eq_false, if_false]
        have h := readResponse_outcome_trace calculateResponseLength w.reply
          ([Effect.lock] ++ [Effect.connect none]
            ++ [Effect.setDeadline (w.now1 + drainTimeout) w.drainDeadline,
              Effect.readAll]
            ++ [Effect.startCloseTimer]
            ++ [Effect.setDeadline (exchangeDeadline
                (startCloseTimer { mb' with lastActivity := w.now2 })) none]
            ++ [Effect.logf "modbus: send % x\n" aduRequest]
            ++ [Effect.write aduRequest none]) [] aduRequest
        cases h1 : readResponse calculateResponseLength w.reply
          ([Effect.lock] ++ [Effect.connect none]
            ++ [Effect.setDeadline (w.now1 + drainTimeout) w.drainDeadline,
              Effect.readAll]
            ++ [Effect.startCloseTimer]
            ++ [Effect.setDeadline (exchangeDeadline
                (startCloseTimer { mb' with lastActivity := w.now2 })) none]
            ++ [Effect.logf "modbus: send % x\n" aduRequest]
            ++ [Effect.write aduRequest none]) aduRequest with
        | none =>
          rw [h1] at h
          cases h2 : readResponse calculateResponseLength w.reply [] aduRequest with
          | none => rfl
          | some r2 => rw [h2] at h; simp at h
        | some r1 =>
          rw [h1] at h
          cases h2 : readResponse calculateResponseLength w.reply [] aduRequest with
          | none => rw [h2] at h; simp at h
          | some r2 =>
            rw [h2] at h
            simp only [Option.map_some', Option.some.injEq] at h
            simp only [Option.map_some', h]

/-- C12. Draining stale bytes is advisory. For every request, what `Send` returns (the
response and the error) and the transporter it leaves are the same whatever the drain
step does: whether setting its short deadline fails or not (`d`), and whatever bytes its
read returns and however that read ends (`c`). In particular no byte the drain read
enters the response. -/
theorem Send_independent_of_drain (calculateResponseLength : List Nat → Int)
    (mb : rtuTCPTransporter) (w : World) (aduRequest : List Nat)
    (d : Option ConnError) (c : Conn) :
    (Send calculateResponseLength mb { w with drainDeadline := d, stale := c }
        aduRequest).map (fun x => (x.outcome, x.mb))
      = (Send calculateResponseLength mb w aduRequest).map (fun x => (x.outcome, x.mb)) := by
  rw [Send_result, Send_result]
  rfl

/-- C18. `Send` never closes the connection itself. For every request, if `connect`
succeeded, the deadline was set and the request was written, and the read of the
response then fails with the error `e`, then `Send` returns that error and leaves the
transporter with its connection still set (the transporter is as `connect` left it,
but for the last activity recorded and the idle timer re-armed). -/
theorem Send_leaves_connection (calculateResponseLength : List Nat → Int)
    (mb : rtuTCPTransporter) (w : World) (aduRequest : List Nat)
    (r : Exit) (aduResponse : Option (List Nat)) (e : ConnError)
    (hconn : (connect mb w).2 = none) (hset : w.setDeadline = none)
    (hwrite : w.write = none)
    (hread : readResponse calculateResponseLength w.reply [] aduRequest = some r)
    (hfail : r.outcome = Outcome.ret aduResponse (some e)) :
    ∃ x, Send calculateResponseLength mb w aduRequest = some x
      ∧ x.outcome = Outcome.ret aduResponse (some e)
      ∧ x.mb.connected = true
      ∧ x.mb = startCloseTimer { (connect mb w).1 with lastActivity := w.now2 } := by
  have h := Send_result calculateResponseLength mb w aduRequest
  rw [hconn, hset, hwrite, hread] at h
  simp only [Option.map_some'] at h
  cases hS : Send calculateResponseLength mb w aduRequest with
  | none => rw [hS] at h; simp at h
  | some x =>
    rw [hS] at h
    simp only [Option.map_some', Option.some.injEq, Prod.mk.injEq] at h
    refine ⟨x, rfl, by rw [h.1, hfail], ?_, h.2⟩
    rw [h.2]
    exact connect_connected mb w hconn

/-- Witness of C18: no byte arrives before the deadline. -/
theorem Send_leaves_connection_witness :
    ∃ x, Send (fun _ => 7) ⟨"10.0.0.7:502", 10000000000, 60000000000, true, 0, none⟩
          ⟨none, 1000, none, ⟨[], ConnError.timeout⟩, 2000, none, none,
            ⟨[], ConnError.timeout⟩⟩
          [1, 3, 0, 0, 0, 1, 132, 10] = some x
      ∧ x.outcome = Outcome.ret none (some ConnError.timeout)
      ∧ x.mb.connected = true
      ∧ x.mb = startCloseTimer
          { (connect ⟨"10.0.0.7:502", 10000000000, 60000000000, true, 0, none⟩
              ⟨none, 1000, none, ⟨[], ConnError.timeout⟩, 2000, none, none,
                ⟨[], ConnError.timeout⟩⟩).1 with lastActivity := 2000 } :=
  Send_leaves_connection (fun _ => 7)
    ⟨"10.0.0.7:502", 10000000000, 60000000000, true, 0, none⟩
    ⟨none, 1000, none, ⟨[], ConnError.timeout⟩, 2000, none, none, ⟨[], ConnError.timeout⟩⟩
    [1, 3, 0, 0, 0, 1, 132, 10]
    ⟨Outcome.ret none (some ConnError.timeout), ⟨[], ConnError.timeout⟩,
      [Effect.readAtLeast 4 0]⟩
    none ConnError.timeout (by rfl) (by rfl) (by rfl) (by decide) (by rfl)

/-! ## The remainder read of the normal path -/

/-- C16, as amended. On the normal-reply path the framer reads exactly the remaining
bytes. Whatever the variables of the loop hold when an iteration starts: if the initial
read returns `n` bytes without error (so `rtuMinSize ≤ n`) with `n < L`, where `L` is
the length of the oracle and `L ≤ rtuMaxSize`, the function byte read equals the
function code of the request, and the connection then still delivers at least `L - n`
bytes, then the iteration performs one remainder read, for `data[n:L]`, which takes
exactly the next `L - n` bytes off the connection; the frame assembled is the `n` bytes
of the initial read followed by those `L - n` bytes and has length exactly `L`; and
every byte after them is still pending on the connection. -/
theorem iteration_reads_exact_remainder (address function functionFail : Nat) (L : Nat)
    (s : Frame) (n : Nat) (data1 : List Nat) (conn1 : Conn)
    (hdata : s.data.length = rtuMaxSize)
    (hinit : ReadAtLeast s.conn s.data rtuMinSize = some (n, none, data1, conn1))
    (hlt : n < L) (hmax : L ≤ rtuMaxSize)
    (hfun : data1.getD 1 0 = function)
    (havail : L - n ≤ conn1.pending.length) :
    ∃ conn2,
      conn2.pending = conn1.pending.drop (L - n) ∧ conn2.final = conn1.final
        ∧ (data1.take n ++ conn1.pending.take (L - n)).length = L
        ∧ rtuMinSize ≤ n
        ∧ iteration address function functionFail (L : Int) s
          = some (if data1.head? = some address then
              Sum.inl ⟨Outcome.ret (some (data1.take n ++ conn1.pending.take (L - n))) none,
                conn2,
                s.trace ++ [Effect.readAtLeast rtuMinSize n]
                  ++ [Effect.readFull n L (L - n)]
                  ++ [Effect.logf "modbus: recv % x\n"
                      (data1.take n ++ conn1.pending.take (L - n))]⟩
            else
              Sum.inr ⟨L - n,
                data1.take n ++ conn1.pending.take (L - n) ++ data1.drop L, some L, conn2,
                s.trace ++ [Effect.readAtLeast rtuMinSize n]
                  ++ [Effect.readFull n L (L - n)]
                  ++ [Effect.logf "modbus: recv % x\n"
                      (data1.take n ++ conn1.pending.take (L - n))]⟩) := by
  have hmin4 : rtuMinSize = 4 := rfl
  have hmax256 : rtuMaxSize = 256 := rfl
  obtain ⟨n', err', buf', cs1, hRA, hlen, -, hok, -, -⟩ :=
    ReadAtLeast_spec s.conn.chunks s.conn.final s.data rtuMinSize (by omega)
  have hRA' : ReadAtLeast s.conn s.data rtuMinSize = _ := hRA
  rw [hinit] at hRA'
  simp only [Option.some.injEq, Prod.mk.injEq] at hRA'
  obtain ⟨rfl, rfl, rfl, rfl⟩ := hRA'
  have hn4 : rtuMinSize ≤ n := hok rfl
  have hd1 : data1.length = rtuMaxSize := by rw [hlen, hdata]
  have hbl : (List.drop n (List.take L data1)).length = L - n := by
    rw [List.length_drop, List.length_take]; omega
  obtain ⟨k2, cs2, hRF, hfl2, -, hk2a, hk2b, -⟩ :=
    ReadAtLeast_enough cs1 s.conn.final (List.drop n (List.take L data1)) (L - n)
      (by omega) havail
  have hk2 : k2 = L - n := by omega
  subst hk2
  have hC : List.drop (L - n) (List.drop n (List.take L data1)) = [] :=
    List.drop_of_length_le (by rw [hbl])
  have hFl : (List.take n data1 ++ List.take (L - n) cs1.flatten).length = L := by
    rw [List.length_append, List.length_take, List.length_take]
    have : L - n ≤ cs1.flatten.length := havail
    omega
  obtain ⟨b, tail, hF, hhead⟩ : ∃ b tail,
      List.take n data1 ++ List.take (L - n) cs1.flatten = b :: tail
        ∧ data1.head? = some b := by
    obtain ⟨m, rfl⟩ : ∃ m, n = m + 1 := ⟨n - 1, by omega⟩
    cases data1 with
    | nil => simp at hd1; omega
    | cons p0 rest =>
      exact ⟨p0, List.take m rest ++ List.take (L - (m + 1)) cs1.flatten, by simp, by simp⟩
  have hv := validate_ok address s.aduResponse L (L - n)
    (List.take n data1 ++ List.take (L - n) cs1.flatten ++ List.drop L data1)
    ⟨cs2, s.conn.final⟩
    (s.trace ++ [Effect.readAtLeast rtuMinSize n] ++ [Effect.readFull n L (L - n)])
    (List.take n data1 ++ List.take (L - n) cs1.flatten) (List.drop L data1) b tail rfl
    hFl hF
  have hcond : (data1.head? = some address) ↔ (b = address) := by rw [hhead]; simp
  have hb : ((L : Nat) : Int) > (rtuMinSize : Int) ∧ ((L : Nat) : Int) ≤ (rtuMaxSize : Int) := by
    constructor <;> omega
  refine ⟨⟨cs2, s.conn.final⟩, hfl2, rfl, hFl, hn4, ?_⟩
  have hP : (Conn.mk cs1 s.conn.final).pending = cs1.flatten := rfl
  simp only [iteration, hinit, ne_eq, not_true_eq_false, if_false, hfun, if_true,
    Int.ofNat_lt, hlt, hb, and_self, Int.toNat_ofNat, ReadFull, hbl, hRF, hC,
    List.append_nil, show n + (L - n) = L by omega, hv, hcond, hP]

/-- Witness of C16 as amended: an initial read of 4 bytes of a 7-byte reply, with the
first bytes of a further frame behind it. -/
theorem iteration_reads_exact_remainder_witness :
    ∃ conn2,
      conn2.pending = [5, 120, 71, 1, 3].drop (7 - 4) ∧ conn2.final = ConnError.timeout
        ∧ (([1, 3, 2, 0] ++ List.replicate 252 0).take 4
            ++ [5, 120, 71, 1, 3].take (7 - 4)).length = 7
        ∧ rtuMinSize ≤ 4
        ∧ iteration 1 3 0 ((7 : Nat) : Int)
            (initialFrame ⟨[[1, 3, 2, 0], [5, 120, 71, 1, 3]], ConnError.timeout⟩ [])
          = some (if ([1, 3, 2, 0] ++ List.replicate 252 0).head? = some 1 then
              Sum.inl ⟨Outcome.ret (some (([1, 3, 2, 0] ++ List.replicate 252 0).take 4
                  ++ [5, 120, 71, 1, 3].take (7 - 4))) none,
                conn2,
                [] ++ [Effect.readAtLeast rtuMinSize 4]
                  ++ [Effect.readFull 4 7 (7 - 4)]
                  ++ [Effect.logf "modbus: recv % x\n"
                      (([1, 3, 2, 0] ++ List.replicate 252 0).take 4
                        ++ [5, 120, 71, 1, 3].take (7 - 4))]⟩
            else
              Sum.inr ⟨7 - 4,
                ([1, 3, 2, 0] ++ List.replicate 252 0).take 4
                  ++ [5, 120, 71, 1, 3].take (7 - 4)
                  ++ ([1, 3, 2, 0] ++ List.replicate 252 0).drop 7, some 7, conn2,
                [] ++ [Effect.readAtLeast rtuMinSize 4]
                  ++ [Effect.readFull 4 7 (7 - 4)]
                  ++ [Effect.logf "modbus: recv % x\n"
                      (([1, 3, 2, 0] ++ List.replicate 252 0).take 4
                        ++ [5, 120, 71, 1, 3].take (7 - 4))]⟩) :=
  iteration_reads_exact_remainder 1 3 0 7
    (initialFrame ⟨[[1, 3, 2, 0], [5, 120, 71, 1, 3]], ConnError.timeout⟩ []) 4
    ([1, 3, 2, 0] ++ List.replicate 252 0) ⟨[[5, 120, 71, 1, 3]], ConnError.timeout⟩
    (by simp [initialFrame]) (by decide) (by decide) (by decide) (by decide) (by decide)

/-- Counterexample to C16 as stated: the oracle predicts 7 bytes and the initial read
returns the 4 bytes `01 03 02 00`, whose function byte is that of the request, but only
one further byte arrives before the deadline. The remainder read takes that 1 byte, not
3, no frame of length 7 is assembled, and the call ends with the error. -/
theorem readResponse_remainder_comes_up_short :
    (readResponse (fun _ => 7) ⟨[[1, 3, 2, 0], [5]], ConnError.timeout⟩ []
        [1, 3, 0, 0, 0, 1, 132, 10]).map (fun x => (x.outcome, x.trace))
      = some (Outcome.ret none (some ConnError.timeout),
          [Effect.readAtLeast 4 4, Effect.readFull 4 7 1]) := by
  decide

/-! ## The operations of `readResponse` follow those recorded before the call -/

theorem validate_prependTrace (address : Nat) (old : Option Nat) (n n1 : Nat)
    (err : Option ConnError) (data : List Nat) (conn : Conn) (t tr : List Effect) :
    validate address old n n1 err data conn (t ++ tr)
      = prependStep t (validate address old n n1 err data conn tr) := by
  unfold validate
  by_cases herr : err = none
  · subst herr
    by_cases hlen : data.length < n
    · simp [hlen, prependStep, Exit.prependTrace]
    · simp only [ne_eq, not_true_eq_false, if_false, hlen]
      cases (List.take n data).head? with
      | none => simp [prependStep, Exit.prependTrace]
      | some b =>
        by_cases hb : b = address
        · simp [hb, prependStep, Exit.prependTrace]
        · simp [hb, prependStep, Frame.prependTrace]
  · simp [herr, prependStep, Exit.prependTrace]

theorem iteration_prependTrace (address function functionFail : Nat) (bytesToRead : Int)
    (t : List Effect) (s : Frame) :
    iteration address function functionFail bytesToRead (s.prependTrace t)
      = (iteration address function functionFail bytesToRead s).map (prependStep t) := by
  obtain ⟨n1, data, adu, conn, tr⟩ := s
  simp only [iteration, Frame.prependTrace]
  cases ReadAtLeast conn data rtuMinSize with
  | none => rfl
  | some res =>
    obtain ⟨n, err, d, c⟩ := res
    simp only
    by_cases herr : err = none
    · subst herr
      simp only [ne_eq, not_true_eq_false, if_false]
      split_ifs
      · cases ReadFull c (List.drop n (List.take bytesToRead.toNat d)) with
        | none => rfl
        | some res2 =>
          obtain ⟨m, err2, b2, c2⟩ := res2
          simp only [Option.map_some', List.append_assoc]
          rw [validate_prependTrace]
      · simp only [Option.map_some', List.append_assoc]; rw [validate_prependTrace]
      · simp only [Option.map_some', List.append_assoc]; rw [validate_prependTrace]
      · cases ReadFull c (List.drop n (List.take rtuExceptionSize d)) with
        | none => rfl
        | some res2 =>
          obtain ⟨m, err2, b2, c2⟩ := res2
          simp only [Option.map_some', List.append_assoc]
          rw [validate_prependTrace]
      · simp only [Option.map_some', List.append_assoc]; rw [validate_prependTrace]
      · simp only [Option.map_some', List.append_assoc]; rw [validate_prependTrace]
    · simp [herr, prependStep, Exit.prependTrace]

theorem readLoop_prependTrace (address function functionFail : Nat) (bytesToRead : Int)
    (t : List Effect) :
    ∀ (fuel : Nat) (s : Frame),
      readLoop address function functionFail bytesToRead fuel (s.prependTrace t)
        = (readLoop address function functionFail bytesToRead fuel s).map
            (Exit.prependTrace t) := by
  intro fuel
  induction fuel with
  | zero => intro s; rfl
  | succ fuel ih =>
    intro s
    simp only [readLoop, iteration_prependTrace]
    cases iteration address function functionFail bytesToRead s with
    | none => rfl
    | some r =>
      cases r with
      | inl x => rfl
      | inr s' =>
        simp only [Option.map_some', prependStep]
        exact ih s'

/-- The operations `readResponse` records are those recorded before the call followed
by its own, which are those it records when nothing was recorded before. -/
theorem readResponse_prependTrace (calculateResponseLength : List Nat → Int) (conn : Conn)
    (t : List Effect) (aduRequest : List Nat) :
    readResponse calculateResponseLength conn t aduRequest
      = (readResponse calculateResponseLength conn [] aduRequest).map
          (Exit.prependTrace t) := by
  match aduRequest with
  | [] => simp [readResponse, Exit.prependTrace]
  | [_] => simp [readResponse, Exit.prependTrace]
  | address :: function :: rest =>
    simp only [readResponse]
    have h := readLoop_prependTrace address function (function &&& 0x80)
      (calculateResponseLength (address :: function :: rest)) t
      (conn.pending.length + 1) (initialFrame conn [])
    simp only [Frame.prependTrace, initialFrame, List.append_nil] at h
    simp only [initialFrame]
    exact h

/-- A call of `Send` in which `connect`, the setting of the deadline and the write
succeed: its outcome is that of `readResponse`, and its operations are those up to the
write, then those of `readResponse`, then the unlock. -/
theorem Send_success (calculateResponseLength : List Nat → Int) (mb : rtuTCPTransporter)
    (w : World) (aduRequest : List Nat) (r : Exit)
    (hconn : (connect mb w).2 = none) (hset : w.setDeadline = none)
    (hwrite : w.write = none)
    (hread : readResponse calculateResponseLength w.reply [] aduRequest = some r) :
    Send calculateResponseLength mb w aduRequest
      = some ⟨r.outcome, startCloseTimer { (connect mb w).1 with lastActivity := w.now2 },
          [Effect.lock, Effect.connect none,
            Effect.setDeadline (w.now1 + drainTimeout) w.drainDeadline,
            Effect.readAll, Effect.startCloseTimer,
            Effect.setDeadline (if mb.Timeout > 0 then w.now2 + mb.Timeout else zeroTime) none,
            Effect.logf "modbus: send % x\n" aduRequest,
            Effect.write aduRequest none] ++ r.trace ++ [Effect.unlock]⟩ := by
  have hT := connect_Timeout mb w
  obtain ⟨mb', hc⟩ : ∃ mb', connect mb w = (mb', none) :=
    ⟨(connect mb w).1, by rw [← hconn]⟩
  rw [hc] at hT
  simp only at hT
  simp only [Send, hc, hset, hwrite, ne_eq, not_true_eq_false, if_false]
  rw [readResponse_prependTrace, hread]
  simp only [Option.map_some', Exit.prependTrace, exchangeDeadline, startCloseTimer, hT,
    List.append_assoc, List.cons_append, List.nil_append]

/-- C11. Order of one exchange. Every call of `Send` ends, and what it does is fixed by
what the surroundings answer, in this order: lock; connect; then, if connect succeeded,
the short deadline and the read that drain stale bytes, the recording of the last
activity and the re-arming of the idle timer, and the setting of the deadline of the
exchange; then, if that succeeded, the log line and the write of `aduRequest`; then, if
the write succeeded, the operations of the call of `readResponse`, whose outcome is the
outcome of `Send`; and last the unlock. A failure of connect, of the setting of the
deadline or of the write ends the sequence after that operation, with that error. In
particular every read of the reply has the write of the request before it, and the
bytes written are exactly `aduRequest`. -/
theorem Send_order (calculateResponseLength : List Nat → Int) (mb : rtuTCPTransporter)
    (w : World) (aduRequest : List Nat) :
    ∃ x, Send calculateResponseLength mb w aduRequest = some x
      ∧ ((∃ e, (connect mb w).2 = some e
            ∧ x.outcome = Outcome.ret none (some e)
            ∧ x.trace = [Effect.lock, Effect.connect (some e), Effect.unlock])
        ∨ ((connect mb w).2 = none ∧ x.mb.lastActivity = w.now2
            ∧ ((∃ e, w.setDeadline = some e
                  ∧ x.outcome = Outcome.ret none (some e)
                  ∧ x.trace = [Effect.lock, Effect.connect none,
                      Effect.setDeadline (w.now1 + drainTimeout) w.drainDeadline,
                      Effect.readAll, Effect.startCloseTimer,
                      Effect.setDeadline
                        (if mb.Timeout > 0 then w.now2 + mb.Timeout else zeroTime) (some e),
                      Effect.unlock])
              ∨ (∃ e, w.setDeadline = none ∧ w.write = some e
                  ∧ x.outcome = Outcome.ret none (some e)
                  ∧ x.trace = [Effect.lock, Effect.connect none,
                      Effect.setDeadline (w.now1 + drainTimeout) w.drainDeadline,
                      Effect.readAll, Effect.startCloseTimer,
                      Effect.setDeadline
                        (if mb.Timeout > 0 then w.now2 + mb.Timeout else zeroTime) none,
                      Effect.logf "modbus: send % x\n" aduRequest,
                      Effect.write aduRequest (some e), Effect.unlock])
              ∨ (∃ r, w.setDeadline = none ∧ w.write = none
                  ∧ readResponse calculateResponseLength w.reply [] aduRequest = some r
                  ∧ x.outcome = r.outcome
                  ∧ x.trace = [Effect.lock, Effect.connect none,
                      Effect.setDeadline (w.now1 + drainTimeout) w.drainDeadline,
                      Effect.readAll, Effect.startCloseTimer,
                      Effect.setDeadline
                        (if mb.Timeout > 0 then w.now2 + mb.Timeout else zeroTime) none,
                      Effect.logf "modbus: send % x\n" aduRequest,
                      Effect.write aduRequest none] ++ r.trace ++ [Effect.unlock]))))
      ∧ (∀ pre o post, x.trace = pre ++ o :: post → o.isResponseRead = true →
          Effect.write aduRequest none ∈ pre)
      ∧ (∀ bs e, Effect.write bs e ∈ x.trace → bs = aduRequest) := by
  obtain ⟨x, hx, hshape⟩ := Send_shape calculateResponseLength mb w aduRequest
  refine ⟨x, hx, ?_⟩
  rcases hshape with ⟨e, hc, -, hout, htr⟩ | ⟨hc, hmb, ⟨e, hset, hout, htr⟩
    | ⟨e, hset, hw, hout, htr⟩ | ⟨-, -, -, hset, hw, -, -, -, -⟩⟩
  · refine ⟨Or.inl ⟨e, hc, hout, htr⟩, ?_, ?_⟩
    · intro pre o post hsplit ho
      have hmem : o ∈ x.trace := by rw [hsplit]; simp
      rw [htr] at hmem
      simp only [List.mem_cons, List.mem_singleton, List.not_mem_nil, or_false] at hmem
      rcases hmem with rfl | rfl | rfl <;> simp [Effect.isResponseRead] at ho
    · intro bs e' hmem
      rw [htr] at hmem
      simp at hmem
  · refine ⟨Or.inr ⟨hc, by rw [hmb]; rfl, Or.inl ⟨e, hset, hout, htr⟩⟩, ?_, ?_⟩
    · intro pre o post hsplit ho
      have hmem : o ∈ x.trace := by rw [hsplit]; simp
      rw [htr] at hmem
      simp only [List.mem_cons, List.mem_singleton, List.not_mem_nil, or_false] at hmem
      rcases hmem with rfl | rfl | rfl | rfl | rfl | rfl | rfl <;>
        simp [Effect.isResponseRead] at ho
    · intro bs e' hmem
      rw [htr] at hmem
      simp at hmem
  · refine ⟨Or.inr ⟨hc, by rw [hmb]; rfl, Or.inr (Or.inl ⟨e, hset, hw, hout, htr⟩)⟩, ?_, ?_⟩
    · intro pre o post hsplit ho
      have hmem : o ∈ x.trace := by rw [hsplit]; simp
      rw [htr] at hmem
      simp only [List.mem_cons, List.mem_singleton, List.not_mem_nil, or_false] at hmem
      rcases hmem with rfl | rfl | rfl | rfl | rfl | rfl | rfl | rfl | rfl <;>
        simp [Effect.isResponseRead] at ho
    · intro bs e' hmem
      rw [htr] at hmem
      simp at hmem
      exact hmem.1
  · obtain ⟨r, hr, ⟨ops, hops, hframer⟩, -⟩ :=
      readResponse_spec calculateResponseLength w.reply [] aduRequest
    rw [List.nil_append] at hops
    have hS := Send_success calculateResponseLength mb w aduRequest r hc hset hw hr
    rw [hx, Option.some.injEq] at hS
    have hmb' : x.mb = startCloseTimer { (connect mb w).1 with lastActivity := w.now2 } := by
      rw [hS]
    have hout : x.outcome = r.outcome := by rw [hS]
    have htr : x.trace = [Effect.lock, Effect.connect none,
        Effect.setDeadline (w.now1 + drainTimeout) w.drainDeadline,
        Effect.readAll, Effect.startCloseTimer,
        Effect.setDeadline (if mb.Timeout > 0 then w.now2 + mb.Timeout else zeroTime) none,
        Effect.logf "modbus: send % x\n" aduRequest,
        Effect.write aduRequest none] ++ r.trace ++ [Effect.unlock] := by rw [hS]
    refine ⟨Or.inr ⟨hc, by rw [hmb']; rfl, Or.inr (Or.inr ⟨r, hset, hw, hr, hout, htr⟩)⟩,
      ?_, ?_⟩
    · intro pre o post hsplit ho
      rw [htr, List.append_assoc] at hsplit
      refine mem_before_of_not_mem _ _ pre post o _ hsplit.symm ?_ (by simp)
      intro hmem
      simp only [List.mem_cons, List.mem_singleton, List.not_mem_nil, or_false] at hmem
      rcases hmem with rfl | rfl | rfl | rfl | rfl | rfl | rfl | rfl <;>
        simp [Effect.isResponseRead] at ho
    · intro bs e' hmem
      rw [htr] at hmem
      rcases List.mem_append.1 hmem with h | h
      · rcases List.mem_append.1 h with h | h
        · simp at h
          exact h.1
        · rw [hops] at h
          have := hframer _ h
          simp [Effect.isFramer] at this
      · simp at h

end Modbus
